import Mathlib

/-!
Round-robin gRPC resolver (`pkg/machinery/client/resolver/roundrobin.go`).

A shallow embedding of the resolver: the registration function, the builder and the
one-shot resolution algorithm `roundRobinResolver.start`.

Go strings are Lean `String`s; every byte the code inspects (`,`, `:`, `[`, `]`) is ASCII,
so scanning characters and scanning bytes agree.  The functions of the Go standard library
the code calls (`strings.Split`, `net.SplitHostPort`, `net.JoinHostPort`, `strconv.Itoa`,
`fmt.Sprintf` with `%d`) are written out.  The two functions of the external package
`github.com/talos-systems/net` (`FormatAddress`, `AddressContainsPort`), the random source
behind `rand.Shuffle` and the connection handle `resolver.ClientConn` are parameters; the
package is also written out, as `talosNet`.
-/

namespace Resolver

/-! ## Go standard library -/

/-- Go error values met by the resolver: the `*net.AddrError` of `net.SplitHostPort`, the
wrapping error of `fmt.Errorf` with `%w` (its formatted text and the wrapped cause), and
errors handed back by the connection handle. -/
inductive GoError where
  | addrError (err addr : String)
  | errorf (msg : String) (cause : GoError)
  | external (msg : String)
  deriving DecidableEq, Repr

/-- The method `Error()`: for `*net.AddrError` it is `"address " + Addr + ": " + Err`
(only `Err` when `Addr` is empty). -/
def GoError.Error : GoError → String
  | .addrError err addr => if addr = "" then err else "address " ++ addr ++ ": " ++ err
  | .errorf msg _ => msg
  | .external msg => msg

/-- Index of the first occurrence of `c`, as `bytealg.IndexByteString`. -/
def indexByte (c : Char) : List Char → Option Nat
  | [] => none
  | x :: xs => if x = c then some 0 else (indexByte c xs).map (· + 1)

/-- Index of the last occurrence of `c`, as `bytealg.LastIndexByteString`. -/
def lastIndexByte (c : Char) : List Char → Option Nat
  | [] => none
  | x :: xs =>
    match lastIndexByte c xs with
    | some i => some (i + 1)
    | none => if x = c then some 0 else none

/-- Pieces of `s` between the occurrences of the one-byte separator `c`. -/
def splitByte (c : Char) : List Char → List (List Char)
  | [] => [[]]
  | x :: xs =>
    if x = c then [] :: splitByte c xs
    else
      match splitByte c xs with
      | [] => [[x]]
      | p :: ps => (x :: p) :: ps

/-- The call `strings.Split(s, ",")`. -/
def stringsSplitComma (s : String) : List String :=
  (splitByte ',' s.data).map String.mk

/-- Decimal digits of a natural number, most significant first (`fuel` bounds the number
of digits). -/
def decimalDigits : Nat → Nat → List Char
  | 0, _ => []
  | fuel + 1, n =>
    if n < 10 then [Char.ofNat (48 + n)]
    else decimalDigits fuel (n / 10) ++ [Char.ofNat (48 + n % 10)]

/-- The call `strconv.Itoa(n)`, also what `%d` prints. -/
def Itoa (n : Int) : String :=
  match n with
  | .ofNat m => String.mk (decimalDigits (m + 1) m)
  | .negSucc m => String.mk ('-' :: decimalDigits (m + 2) (m + 1))

/-- The call `net.JoinHostPort(host, port)`: a host with a colon is put in brackets. -/
def JoinHostPort (host port : String) : String :=
  if (indexByte ':' host.data).isSome then "[" ++ host ++ "]:" ++ port
  else host ++ ":" ++ port

/-- The call `net.SplitHostPort(hostport)`, returning `(host, port)` or the
`*net.AddrError`.  In the source `j` and `k` are the positions from which no `[` and no
`]` may occur any more. -/
def SplitHostPort (hostport : String) : Except GoError (String × String) :=
  let s := hostport.data
  let addrErr (why : String) : GoError := .addrError why hostport
  match lastIndexByte ':' s with
  | none => .error (addrErr "missing port in address")
  | some i =>
    let hostJK : Except GoError (List Char × Nat × Nat) :=
      if s.head? = some '[' then
        match indexByte ']' s with
        | none => .error (addrErr "missing ']' in address")
        | some e =>
          if e + 1 = s.length then .error (addrErr "missing port in address")
          else if e + 1 = i then .ok ((s.take e).drop 1, 1, e + 1)
          else if s.get? (e + 1) = some ':' then .error (addrErr "too many colons in address")
          else .error (addrErr "missing port in address")
      else if (indexByte ':' (s.take i)).isSome then
        .error (addrErr "too many colons in address")
      else .ok (s.take i, 0, 0)
    match hostJK with
    | .error e => .error e
    | .ok (host, j, k) =>
      if (indexByte '[' (s.drop j)).isSome then .error (addrErr "unexpected '[' in address")
      else if (indexByte ']' (s.drop k)).isSome then .error (addrErr "unexpected ']' in address")
      else .ok (String.mk host, String.mk (s.drop (i + 1)))

/-- One step of `rand.Shuffle`'s callback in `start`:
`addrs[i], addrs[j] = addrs[j], addrs[i]`. -/
def swapAt {α : Type} (xs : List α) (i j : Nat) : List α :=
  match xs.get? i, xs.get? j with
  | some a, some b => (xs.set i b).set j a
  | _, _ => xs

/-- The call `rand.Shuffle(n, swap)`: for `i = n-1` down to `1` it draws `j` in `[0, i]`
and calls `swap(i, j)`.  The first argument is `n`; `draw i` is the raw value the random
source yields at step `i`, reduced into range as `Intn(i+1)` does. -/
def Shuffle {α : Type} (draw : Nat → Nat) : Nat → List α → List α
  | 0, xs => xs
  | 1, xs => xs
  | i + 2, xs => Shuffle draw (i + 1) (swapAt xs (i + 1) (draw (i + 1) % (i + 2)))

/-! ## External interfaces -/

/-- The two functions of `github.com/talos-systems/net` that `start` calls. -/
structure NetPkg where
  FormatAddress : String → String
  AddressContainsPort : String → Bool

/-- The type `resolver.Target`. -/
structure Target where
  Scheme : String
  Authority : String
  Endpoint : String
  deriving DecidableEq, Repr

/-- The type `resolver.Address`, with the two fields the resolver sets. -/
structure Address where
  ServerName : String
  Addr : String
  deriving DecidableEq, Repr

/-- The type `serviceconfig.ParseResult`: the parsed configuration (kept as the handle's
own rendering of it) and the parse error, if any. -/
structure ParseResult where
  Config : String
  Err : Option GoError
  deriving DecidableEq, Repr

/-- The type `resolver.State`. -/
structure State where
  Addresses : List Address
  ServiceConfig : ParseResult
  deriving DecidableEq, Repr

/-- The connection handle `resolver.ClientConn`, with the two methods `start` calls. -/
structure ClientConn where
  ParseServiceConfig : String → ParseResult
  UpdateState : State → Option GoError

/-- A call made on the connection handle. -/
inductive Call where
  | parseServiceConfig (json : String)
  | updateState (s : State)
  deriving DecidableEq, Repr

/-- The type `resolver.BuildOptions`; `Build` ignores it. -/
structure BuildOptions where
  deriving DecidableEq, Repr

/-! ## The resolver -/

/-- The format `roundRobinResolverScheme = "taloslist-%d"` applied to a port. -/
def roundRobinResolverScheme (port : Int) : String :=
  "taloslist-" ++ Itoa port

structure roundRobinResolverBuilder where
  port : Int
  scheme : String
  deriving DecidableEq, Repr

/-- The global registry of `google.golang.org/grpc/resolver`, newest registration first. -/
abbrev Registry := List roundRobinResolverBuilder

/-- The call `resolver.Register(b)`. -/
def Register (b : roundRobinResolverBuilder) (reg : Registry) : Registry :=
  b :: reg

/-- Registers the resolver for `port`; returns the scheme and the registry afterwards. -/
def RegisterRoundRobinResolver (port : Int) (reg : Registry) : String × Registry :=
  let scheme := roundRobinResolverScheme port
  (scheme, Register { port := port, scheme := scheme } reg)

def roundRobinResolverBuilder.Scheme (b : roundRobinResolverBuilder) : String :=
  b.scheme

structure roundRobinResolver where
  target : Target
  cc : ClientConn
  port : Int

/-- The literal `serviceConfigJSON` of `start`, with its line breaks and tabs. -/
def serviceConfigJSON : String :=
  "\x7b\n\t\t\"loadBalancingConfig\": [\x7b\n\t\t\t\"round_robin\": \x7b\x7d\n\t\t\x7d]\n\t\x7d"

/-- The body of the loop of `start` for one token `a`: the address to append, or the
error `start` returns. -/
def resolveToken (lib : NetPkg) (port : Int) (a : String) : Except GoError Address :=
  let addr := lib.FormatAddress a
  if lib.AddressContainsPort addr then
    match SplitHostPort addr with
    | .error err =>
      .error (.errorf ("failed to derive server name from address " ++ addr ++ ": "
        ++ err.Error) err)
    | .ok (serverName, _) => .ok { ServerName := serverName, Addr := addr }
  else
    .ok { ServerName := addr, Addr := JoinHostPort addr (Itoa port) }

/-- The loop of `start` over the tokens, appending to `addrs` and returning at the first
error. -/
def resolveLoop (lib : NetPkg) (port : Int) : List String → List Address →
    Except GoError (List Address)
  | [], addrs => .ok addrs
  | a :: rest, addrs =>
    match resolveToken lib port a with
    | .error e => .error e
    | .ok address => resolveLoop lib port rest (addrs ++ [address])

/-- The method `start`: the error returned (`none` for `nil`) and the calls made on the
connection handle, in order. -/
def roundRobinResolver.start (lib : NetPkg) (draw : Nat → Nat) (r : roundRobinResolver) :
    Option GoError × List Call :=
  match resolveLoop lib r.port (stringsSplitComma r.target.Endpoint) [] with
  | .error e => (some e, [])
  | .ok addrs =>
    let addrs := Shuffle draw addrs.length addrs
    let parsedServiceConfig := r.cc.ParseServiceConfig serviceConfigJSON
    match parsedServiceConfig.Err with
    | some e => (some e, [.parseServiceConfig serviceConfigJSON])
    | none =>
      let state : State := { Addresses := addrs, ServiceConfig := parsedServiceConfig }
      (r.cc.UpdateState state, [.parseServiceConfig serviceConfigJSON, .updateState state])

/-- The method `Build`: the resolver or the error, and the calls made on the handle. -/
def roundRobinResolverBuilder.Build (lib : NetPkg) (draw : Nat → Nat)
    (b : roundRobinResolverBuilder) (target : Target) (cc : ClientConn)
    (_opts : BuildOptions) : Except GoError roundRobinResolver × List Call :=
  let r : roundRobinResolver := { target := target, cc := cc, port := b.port }
  match r.start lib draw with
  | (some err, calls) => (.error err, calls)
  | (none, calls) => (.ok r, calls)

/-- The method `ResolveNow`: no call on the handle, the resolver unchanged. -/
def roundRobinResolver.ResolveNow (r : roundRobinResolver) : roundRobinResolver × List Call :=
  (r, [])

/-- The method `Close`: no call on the handle, the resolver unchanged. -/
def roundRobinResolver.Close (r : roundRobinResolver) : roundRobinResolver × List Call :=
  (r, [])

/-! ## The external package `github.com/talos-systems/net`

The package is not part of the repository.  Its two functions are written out here after
its source, with `net.ParseIP` and `IP.String` of the Go standard library, and collected in
`talosNet`, the instance of `NetPkg` at which the theorems are applied. -/

/-- The call `strings.Trim(s, "[]")`. -/
def trimBrackets (s : List Char) : List Char :=
  let p : Char → Bool := fun c => c = '[' || c = ']'
  ((s.dropWhile p).reverse.dropWhile p).reverse

/-- The loop of `dtoi` of package `net`: the decimal number at the start of `s`, with the
value read so far and the number of bytes consumed; the third component is `ok`.  A value
of `0xFFFFFF` or more is an overflow. -/
def dtoiLoop : List Char → Nat → Nat → Nat × Nat × Bool
  | [], n, i => if i = 0 then (0, 0, false) else (n, i, true)
  | c :: cs, n, i =>
    if '0' ≤ c ∧ c ≤ '9' then
      let n' := n * 10 + (c.toNat - 48)
      if n' ≥ 0xFFFFFF then (0xFFFFFF, i, false) else dtoiLoop cs n' (i + 1)
    else if i = 0 then (0, 0, false)
    else (n, i, true)

/-- The function `dtoi` of package `net`. -/
def dtoi (s : List Char) : Nat × Nat × Bool :=
  dtoiLoop s 0 0

/-- Value of a hexadecimal digit, if the byte is one. -/
def hexValue (c : Char) : Option Nat :=
  if '0' ≤ c ∧ c ≤ '9' then some (c.toNat - 48)
  else if 'a' ≤ c ∧ c ≤ 'f' then some (c.toNat - 97 + 10)
  else if 'A' ≤ c ∧ c ≤ 'F' then some (c.toNat - 65 + 10)
  else none

/-- The loop of `xtoi` of package `net`, as `dtoiLoop` for hexadecimal numbers. -/
def xtoiLoop : List Char → Nat → Nat → Nat × Nat × Bool
  | [], n, i => if i = 0 then (0, i, false) else (n, i, true)
  | c :: cs, n, i =>
    match hexValue c with
    | some d =>
      let n' := n * 16 + d
      if n' ≥ 0xFFFFFF then (0, i, false) else xtoiLoop cs n' (i + 1)
    | none => if i = 0 then (0, i, false) else (n, i, true)

/-- The function `xtoi` of package `net`. -/
def xtoi (s : List Char) : Nat × Nat × Bool :=
  xtoiLoop s 0 0

/-- The loop of `parseIPv4`: `k` fields are still to be read, `first` tells whether the
next one is the first.  A field is a decimal number up to 255 without a leading zero;
fields are separated by dots; nothing may follow the last. -/
def parseIPv4Fields : Nat → Bool → List Char → Option (List Nat)
  | 0, _, s => if s.isEmpty then some [] else none
  | k + 1, first, s =>
    if s.isEmpty then none
    else
      let afterDot : Option (List Char) :=
        if first then some s
        else match s with
          | '.' :: t => some t
          | _ => none
      match afterDot with
      | none => none
      | some t =>
        let r := dtoi t
        if !r.2.2 || r.1 > 0xFF then none
        else if r.2.1 > 1 && t.head? = some '0' then none
        else (parseIPv4Fields k false (t.drop r.2.1)).map (r.1 :: ·)

/-- The function `parseIPv4` of package `net`: the four bytes of a dotted-decimal address. -/
def parseIPv4 (s : List Char) : Option (List Nat) :=
  parseIPv4Fields 4 true s

/-- The loop of `parseIPv6`: the 16-bit groups read so far, the group index of the
ellipsis `::` if one was met, and the rest of the text.  `k` bounds the groups still
missing. -/
def parseIPv6Loop : Nat → List Nat → Option Nat → List Char →
    Option (List Nat × Option Nat × List Char)
  | 0, groups, ellipsis, s => some (groups, ellipsis, s)
  | k + 1, groups, ellipsis, s =>
    let r := xtoi s
    if !r.2.2 || r.1 > 0xFFFF then none
    else if s.get? r.2.1 = some '.' then
      if ellipsis.isNone && groups.length ≠ 6 then none
      else if groups.length + 2 > 8 then none
      else
        match parseIPv4 s with
        | some [a, b, c, d] => some (groups ++ [a * 256 + b, c * 256 + d], ellipsis, [])
        | _ => none
    else
      let groups' := groups ++ [r.1]
      match s.drop r.2.1 with
      | [] => some (groups', ellipsis, [])
      | ':' :: rest =>
        match rest with
        | [] => none
        | ':' :: rest' =>
          if ellipsis.isSome then none
          else if rest'.isEmpty then some (groups', some groups'.length, [])
          else parseIPv6Loop k groups' (some groups'.length) rest'
        | _ :: _ => parseIPv6Loop k groups' ellipsis rest
      | _ :: _ => none

/-- The function `parseIPv6` of package `net`: the eight 16-bit groups of an IPv6
literal. -/
def parseIPv6 (s : List Char) : Option (List Nat) :=
  let start : Option Nat × List Char :=
    match s with
    | ':' :: ':' :: t => (some 0, t)
    | _ => (none, s)
  if start.1.isSome && start.2.isEmpty then some (List.replicate 8 0)
  else
    match parseIPv6Loop 8 [] start.1 start.2 with
    | none => none
    | some (groups, ellipsis, rest) =>
      if !rest.isEmpty then none
      else if groups.length < 8 then
        match ellipsis with
        | none => none
        | some e => some (groups.take e ++ List.replicate (8 - groups.length) 0 ++ groups.drop e)
      else if ellipsis.isSome then none
      else some groups

/-- The function `net.ParseIP`: the address as eight 16-bit groups (an IPv4 address in
its IPv4-mapped form), or `none` for `nil`.  The first dot or colon decides the format. -/
def ParseIP (s : List Char) : Option (List Nat) :=
  match s.find? (fun c => c = '.' || c = ':') with
  | some '.' =>
    match parseIPv4 s with
    | some [a, b, c, d] => some [0, 0, 0, 0, 0, 0xFFFF, a * 256 + b, c * 256 + d]
    | _ => none
  | some _ => parseIPv6 s
  | none => none

/-- The method `IP.To4`: the four bytes of an IPv4-mapped address. -/
def To4 (ip : List Nat) : Option (List Nat) :=
  match ip with
  | [0, 0, 0, 0, 0, 0xFFFF, g, h] => some [g / 256, g % 256, h / 256, h % 256]
  | _ => none

/-- Lower-case hexadecimal digits of a number, most significant first. -/
def hexDigits : Nat → Nat → List Char
  | 0, _ => []
  | fuel + 1, n =>
    let d := n % 16
    let c := if d < 10 then Char.ofNat (48 + d) else Char.ofNat (87 + d)
    if n < 16 then [c] else hexDigits fuel (n / 16) ++ [c]

/-- Search for the longest run of zero groups in `IP.String`: from group `i` on, with the
best run `(e0, e1)` found so far; the first of the longest runs is kept. -/
def longestZeroRun (ip : List Nat) : Nat → Nat → Option (Nat × Nat) → Option (Nat × Nat)
  | 0, _, best => best
  | fuel + 1, i, best =>
    if i ≥ 8 then best
    else
      let run := ((ip.drop i).takeWhile (· = 0)).length
      let bestLength := match best with
        | some (e0, e1) => e1 - e0
        | none => 0
      if run > 0 ∧ run > bestLength then longestZeroRun ip fuel (i + run + 1) (some (i, i + run))
      else longestZeroRun ip fuel (i + 1) best

/-- The printing loop of `IP.String` for an IPv6 address, from group `i` on. -/
def printIPv6 (ip : List Nat) (run : Option (Nat × Nat)) : Nat → Nat → List Char
  | 0, _ => []
  | fuel + 1, i =>
    if i ≥ 8 then []
    else
      match run with
      | some (e0, e1) =>
        if i = e0 then
          if e1 ≥ 8 then [':', ':']
          else [':', ':'] ++ hexDigits 4 (ip.getD e1 0) ++ printIPv6 ip run fuel (e1 + 1)
        else
          (if i > 0 then [':'] else []) ++ hexDigits 4 (ip.getD i 0)
            ++ printIPv6 ip run fuel (i + 1)
      | none =>
        (if i > 0 then [':'] else []) ++ hexDigits 4 (ip.getD i 0)
          ++ printIPv6 ip run fuel (i + 1)

/-- The method `IP.String`: dotted decimal for an IPv4 address, otherwise the groups in
hexadecimal with the longest run of at least two zero groups written `::`. -/
def IPString (ip : List Nat) : List Char :=
  match To4 ip with
  | some [a, b, c, d] =>
    decimalDigits 3 a ++ ['.'] ++ decimalDigits 3 b ++ ['.'] ++ decimalDigits 3 c ++ ['.']
      ++ decimalDigits 3 d
  | _ =>
    let run := match longestZeroRun ip 8 0 none with
      | some (e0, e1) => if e1 - e0 ≤ 1 then none else some (e0, e1)
      | none => none
    printIPv6 ip run 8 0

/-- The function `FormatAddress` of `github.com/talos-systems/net`: the brackets around
the text are dropped; an IP address is printed in canonical form, an IPv6 address in
brackets; any other text is returned without the brackets. -/
def FormatAddress (addr : String) : String :=
  let addr := trimBrackets addr.data
  match ParseIP addr with
  | some ip =>
    if (To4 ip).isNone then String.mk (['['] ++ IPString ip ++ [']'])
    else String.mk (IPString ip)
  | none => String.mk addr

/-- The function `AddressContainsPort` of `github.com/talos-systems/net`: a text without
a colon, or one that is an IP address once its brackets are dropped, has no port; a text
that is an IP address once its last colon-separated piece and its brackets are dropped has
one; any other text has one exactly when it has a single colon. -/
def AddressContainsPort (addr : String) : Bool :=
  let s := addr.data
  if (indexByte ':' s).isNone then false
  else
    let pieces := splitByte ':' s
    if (ParseIP (trimBrackets s)).isSome then false
    else
      let last := pieces.getLastD []
      let trimmedAddr := s.take (s.length - (last.length + 1))
      if (ParseIP (trimBrackets trimmedAddr)).isSome then true
      else decide (pieces.length = 2)

/-- The package `github.com/talos-systems/net` as the resolver uses it. -/
def talosNet : NetPkg where
  FormatAddress := FormatAddress
  AddressContainsPort := AddressContainsPort

/-- A connection handle that accepts the directive and the state. -/
def acceptingConn : ClientConn where
  ParseServiceConfig json := { Config := json, Err := none }
  UpdateState _ := none

/-! ## JSON documents up to layout -/

/-- A lexical token of a JSON text: a string literal (its raw content) or any other
character that is not white space. -/
inductive JsonToken where
  | str (content : List Char)
  | char (c : Char)
  deriving DecidableEq, Repr

/-- The tokens of a JSON text.  The first argument is the content of the string literal
being read, if any; the second tells whether the previous character was a backslash inside
it.  White space outside string literals is dropped. -/
def jsonTokens : Option (List Char) → Bool → List Char → List JsonToken
  | none, _, [] => []
  | some content, _, [] => [.str content]
  | none, _, c :: cs =>
    if c = '"' then jsonTokens (some []) false cs
    else if c = ' ' ∨ c = '\t' ∨ c = '\n' ∨ c = '\r' then jsonTokens none false cs
    else .char c :: jsonTokens none false cs
  | some content, true, c :: cs => jsonTokens (some (content ++ [c])) false cs
  | some content, false, c :: cs =>
    if c = '"' then .str content :: jsonTokens none false cs
    else jsonTokens (some (content ++ [c])) (c = '\\') cs

/-- Two JSON texts with the same tokens differ in layout only. -/
def jsonEquivalent (a b : String) : Prop :=
  jsonTokens none false a.data = jsonTokens none false b.data

instance (a b : String) : Decidable (jsonEquivalent a b) := by
  unfold jsonEquivalent
  infer_instance

/-- The round-robin declaration `{"loadBalancingConfig": [{"round_robin": {}}]}`. -/
def roundRobinDeclaration : String :=
  "\x7b\"loadBalancingConfig\": [\x7b\"round_robin\": \x7b\x7d\x7d]\x7d"

/-- The text `sub` occurs in `s`. -/
def Contains (s sub : String) : Prop :=
  ∃ pre post : List Char, s.data = pre ++ sub.data ++ post

/-- Value of a string of decimal digits. -/
def digitsValue (l : List Char) : Nat :=
  l.foldl (fun acc c => 10 * acc + (c.toNat - 48)) 0

/-! ## The shuffle over every sequence of draws -/

/-- Every sequence of values the random source can yield during `rand.Shuffle(n, swap)`:
at step `i` the value `Intn(i+1)` is one of `0, …, i`.  A sequence is kept as the function
from the step to the value drawn there. -/
def drawSequences : Nat → List (Nat → Nat)
  | 0 => [fun _ => 0]
  | 1 => [fun _ => 0]
  | i + 2 =>
    (List.range (i + 2)).flatMap fun j =>
      (drawSequences (i + 1)).map fun draw => Function.update draw (i + 1) j

/-- The results of `rand.Shuffle` on `xs`, one for every sequence of draws. -/
def ShuffleOutcomes {α : Type} (n : Nat) (xs : List α) : List (List α) :=
  (drawSequences n).map fun draw => Shuffle draw n xs

/-- Probability of an event on the shuffled list when every sequence of draws is equally
likely: the share of the sequences of draws whose result satisfies the event. -/
def shuffleProbability {α : Type} (xs : List α) (event : List α → Bool) : ℚ :=
  ((ShuffleOutcomes xs.length xs).countP event : ℚ) /
    ((ShuffleOutcomes xs.length xs).length : ℚ)

/-! ## The lifetime of a resolver -/

/-- A method the host framework calls on a built resolver. -/
inductive ResolverCall where
  | resolveNow
  | close
  deriving DecidableEq, Repr

/-- A sequence of `ResolveNow` and `Close` calls on a resolver: the resolver afterwards and
the calls made on the connection handle. -/
def roundRobinResolver.run (r : roundRobinResolver) :
    List ResolverCall → roundRobinResolver × List Call
  | [] => (r, [])
  | .resolveNow :: rest =>
    let step := r.ResolveNow
    let after := roundRobinResolver.run step.1 rest
    (after.1, step.2 ++ after.2)
  | .close :: rest =>
    let step := r.Close
    let after := roundRobinResolver.run step.1 rest
    (after.1, step.2 ++ after.2)

/-- All calls made on the connection handle by a `Build` call followed by the calls `ops`
on the resolver it returned (there is no resolver to call when `Build` fails). -/
def lifetimeCalls (lib : NetPkg) (draw : Nat → Nat) (b : roundRobinResolverBuilder)
    (target : Target) (cc : ClientConn) (opts : BuildOptions) (ops : List ResolverCall) :
    List Call :=
  match b.Build lib draw target cc opts with
  | (.ok r, calls) => calls ++ (r.run ops).2
  | (.error _, calls) => calls

/-- Whether a call on the handle is `UpdateState`. -/
def Call.isUpdateState : Call → Bool
  | .updateState _ => true
  | .parseServiceConfig _ => false

/-- A connection handle that rejects the directive. -/
def directiveRejectingConn : ClientConn where
  ParseServiceConfig _ := { Config := "", Err := some (.external "invalid service config") }
  UpdateState _ := none

/-- A connection handle that accepts the directive and rejects the state. -/
def stateRejectingConn : ClientConn where
  ParseServiceConfig json := { Config := json, Err := none }
  UpdateState _ := some (.external "bad resolver state")

/-! ## Lemmas -/

theorem swapAt_perm {α : Type} (xs : List α) (i j : Nat) : (swapAt xs i j).Perm xs := by
  classical
  unfold swapAt
  cases hi : xs.get? i with
  | none => simp
  | some a =>
    cases hj : xs.get? j with
    | none => simp
    | some b =>
      simp only
      rw [List.get?_eq_some] at hi hj
      obtain ⟨hil, hia⟩ := hi
      obtain ⟨hjl, hjb⟩ := hj
      have hia' : xs[i] = a := by simpa using hia
      have hjb' : xs[j] = b := by simpa using hjb
      subst hia' hjb'
      rw [List.perm_iff_count]
      intro c
      have hjl' : j < (xs.set i xs[j]).length := by simpa using hjl
      rw [List.count_set _ _ _ _ hjl', List.count_set _ _ _ _ hil]
      have ha : (if xs[i] == c then 1 else 0) ≤ xs.count c := by
        split
        · rename_i h
          have : xs[i] = c := by simpa using h
          exact List.count_pos_iff.mpr (this ▸ List.getElem_mem _)
        · exact Nat.zero_le _
      by_cases hij : i = j
      · subst hij
        simp only [List.getElem_set_self]
        omega
      · rw [List.getElem_set_ne hij]
        omega

theorem Shuffle_perm {α : Type} (draw : Nat → Nat) (n : Nat) (xs : List α) :
    (Shuffle draw n xs).Perm xs := by
  induction n using Nat.strongRecOn generalizing xs with
  | _ n ih =>
    match n with
    | 0 => simp [Shuffle]
    | 1 => simp [Shuffle]
    | i + 2 =>
      rw [Shuffle]
      exact (ih (i + 1) (by omega) _).trans (swapAt_perm _ _ _)

/-- A successful run of the loop appends, in token order, what each token resolves to. -/
theorem resolveLoop_ok (lib : NetPkg) (port : Int) (toks : List String)
    (acc out : List Address) (h : resolveLoop lib port toks acc = .ok out) :
    ∃ res, out = acc ++ res ∧
      List.Forall₂ (fun a x => resolveToken lib port a = .ok x) toks res := by
  induction toks generalizing acc with
  | nil =>
    simp only [resolveLoop, Except.ok.injEq] at h
    exact ⟨[], by simp [h], List.Forall₂.nil⟩
  | cons a rest ih =>
    rw [resolveLoop] at h
    cases ha : resolveToken lib port a with
    | error e => rw [ha] at h; cases h
    | ok x =>
      rw [ha] at h
      obtain ⟨res, hout, hres⟩ := ih _ h
      exact ⟨x :: res, by simp [hout], List.Forall₂.cons ha hres⟩

/-- When every token resolves, the loop succeeds. -/
theorem resolveLoop_of_forall₂ (lib : NetPkg) (port : Int) (toks : List String)
    (acc res : List Address)
    (h : List.Forall₂ (fun a x => resolveToken lib port a = .ok x) toks res) :
    resolveLoop lib port toks acc = .ok (acc ++ res) := by
  induction h generalizing acc with
  | nil => simp [resolveLoop]
  | cons ha _ ih => rw [resolveLoop, ha]; simp [ih]

/-- A failing run of the loop returns the error of the first token that fails. -/
theorem resolveLoop_error (lib : NetPkg) (port : Int) (toks : List String)
    (acc : List Address) (e : GoError) (h : resolveLoop lib port toks acc = .error e) :
    ∃ pre a post, toks = pre ++ a :: post ∧
      (∀ b ∈ pre, ∃ x, resolveToken lib port b = .ok x) ∧
      resolveToken lib port a = .error e := by
  induction toks generalizing acc with
  | nil => simp [resolveLoop] at h
  | cons a rest ih =>
    rw [resolveLoop] at h
    cases ha : resolveToken lib port a with
    | error e' =>
      rw [ha] at h
      simp only [Except.error.injEq] at h
      subst h
      exact ⟨[], a, rest, rfl, by simp, ha⟩
    | ok x =>
      rw [ha] at h
      obtain ⟨pre, b, post, hsplit, hpre, hb⟩ := ih _ h
      refine ⟨a :: pre, b, post, by simp [hsplit], ?_, hb⟩
      intro c hc
      rcases List.mem_cons.mp hc with rfl | hc
      · exact ⟨x, ha⟩
      · exact hpre c hc

/-- A published state comes from a loop that succeeded and a directive that parsed. -/
theorem start_published (lib : NetPkg) (draw : Nat → Nat) (r : roundRobinResolver)
    (st : State) (h : Call.updateState st ∈ (r.start lib draw).2) :
    ∃ addrs, resolveLoop lib r.port (stringsSplitComma r.target.Endpoint) [] = .ok addrs ∧
      (r.cc.ParseServiceConfig serviceConfigJSON).Err = none ∧
      st = { Addresses := Shuffle draw addrs.length addrs,
             ServiceConfig := r.cc.ParseServiceConfig serviceConfigJSON } := by
  unfold roundRobinResolver.start at h
  cases hl : resolveLoop lib r.port (stringsSplitComma r.target.Endpoint) [] with
  | error e => rw [hl] at h; simp at h
  | ok addrs =>
    rw [hl] at h
    cases hp : (r.cc.ParseServiceConfig serviceConfigJSON).Err with
    | some e => simp [hp] at h
    | none =>
      simp only [hp, List.mem_cons, Call.updateState.injEq, List.mem_singleton,
        List.not_mem_nil, or_false, false_or, reduceCtorEq] at h
      exact ⟨addrs, rfl, rfl, h⟩

/-- What `start` does once the loop has succeeded and the directive has parsed. -/
theorem start_of_ok (lib : NetPkg) (draw : Nat → Nat) (r : roundRobinResolver)
    (addrs : List Address)
    (hl : resolveLoop lib r.port (stringsSplitComma r.target.Endpoint) [] = .ok addrs)
    (hp : (r.cc.ParseServiceConfig serviceConfigJSON).Err = none) :
    r.start lib draw =
      (r.cc.UpdateState ⟨Shuffle draw addrs.length addrs,
          r.cc.ParseServiceConfig serviceConfigJSON⟩,
        [.parseServiceConfig serviceConfigJSON,
         .updateState ⟨Shuffle draw addrs.length addrs,
          r.cc.ParseServiceConfig serviceConfigJSON⟩]) := by
  unfold roundRobinResolver.start
  rw [hl]
  simp only [hp]

/-- What `start` does when the loop fails. -/
theorem start_of_error (lib : NetPkg) (draw : Nat → Nat) (r : roundRobinResolver)
    (e : GoError)
    (hl : resolveLoop lib r.port (stringsSplitComma r.target.Endpoint) [] = .error e) :
    r.start lib draw = (some e, []) := by
  unfold roundRobinResolver.start
  rw [hl]

/-- Related lists: every member of the left list has a partner in the right one. -/
theorem forall₂_mem_left {α β : Type} {R : α → β → Prop} {l₁ : List α} {l₂ : List β}
    (h : List.Forall₂ R l₁ l₂) {a : α} (ha : a ∈ l₁) : ∃ y ∈ l₂, R a y := by
  induction h with
  | nil => cases ha
  | cons h1 _ ih =>
    rcases List.mem_cons.mp ha with rfl | ha
    · exact ⟨_, List.mem_cons_self _ _, h1⟩
    · obtain ⟨y, hy, hay⟩ := ih ha
      exact ⟨y, List.mem_cons_of_mem _ hy, hay⟩

/-- Every published state holds the address of every token of the target. -/
theorem published_mem (lib : NetPkg) (draw : Nat → Nat) (r : roundRobinResolver)
    (a : String) (x : Address) (ha : a ∈ stringsSplitComma r.target.Endpoint)
    (hx : resolveToken lib r.port a = .ok x) (st : State)
    (h : Call.updateState st ∈ (r.start lib draw).2) : x ∈ st.Addresses := by
  obtain ⟨addrs, hl, _, rfl⟩ := start_published lib draw r st h
  obtain ⟨res, hout, hres⟩ := resolveLoop_ok lib r.port _ _ _ hl
  simp only [List.nil_append] at hout
  subst hout
  refine (Shuffle_perm draw _ _).mem_iff.mpr ?_
  obtain ⟨y, hy, hay⟩ := forall₂_mem_left hres ha
  rw [hx] at hay
  cases hay
  exact hy

/-- A one-element list is left alone by the shuffle. -/
theorem Shuffle_singleton {α : Type} (draw : Nat → Nat) (x : α) :
    Shuffle draw [x].length [x] = [x] := rfl

/-- A target with one token that resolves: what `start` publishes and returns. -/
theorem start_single_token (lib : NetPkg) (draw : Nat → Nat) (r : roundRobinResolver)
    (a : String) (x : Address) (hs : stringsSplitComma r.target.Endpoint = [a])
    (hx : resolveToken lib r.port a = .ok x) :
    (∀ st, Call.updateState st ∈ (r.start lib draw).2 → st.Addresses = [x]) ∧
    ((r.cc.ParseServiceConfig serviceConfigJSON).Err = none →
      r.start lib draw =
        (r.cc.UpdateState ⟨[x], r.cc.ParseServiceConfig serviceConfigJSON⟩,
          [.parseServiceConfig serviceConfigJSON,
           .updateState ⟨[x], r.cc.ParseServiceConfig serviceConfigJSON⟩])) := by
  have hl : resolveLoop lib r.port (stringsSplitComma r.target.Endpoint) [] = .ok [x] := by
    rw [hs]
    simp [resolveLoop, hx]
  constructor
  · intro st h
    obtain ⟨addrs, hl', _, rfl⟩ := start_published lib draw r st h
    rw [hl] at hl'
    cases hl'
    rfl
  · intro hp
    rw [start_of_ok lib draw r [x] hl hp]
    rfl

/-- Splitting on a byte yields one piece more than the byte occurs. -/
theorem splitByte_length (c : Char) (s : List Char) :
    (splitByte c s).length = s.count c + 1 := by
  induction s with
  | nil => rfl
  | cons x xs ih =>
    rw [splitByte]
    by_cases hx : x = c
    · subst hx
      simp [ih]
    · rw [if_neg hx, List.count_cons_of_ne (Ne.symm hx), ← ih]
      cases hsp : splitByte c xs with
      | nil => simp [hsp] at ih
      | cons q qs => simp

theorem stringsSplitComma_length (s : String) :
    (stringsSplitComma s).length = s.data.count ',' + 1 := by
  simp [stringsSplitComma, splitByte_length]

/-- A state `start` publishes holds a rearrangement of the addresses of the tokens, taken
in token order. -/
theorem published_perm (lib : NetPkg) (draw : Nat → Nat) (r : roundRobinResolver)
    (st : State) (h : Call.updateState st ∈ (r.start lib draw).2) :
    ∃ res, List.Forall₂ (fun a x => resolveToken lib r.port a = .ok x)
        (stringsSplitComma r.target.Endpoint) res ∧
      st.Addresses.Perm res := by
  obtain ⟨addrs, hl, _, rfl⟩ := start_published lib draw r st h
  obtain ⟨res, hout, hres⟩ := resolveLoop_ok lib r.port _ _ _ hl
  simp only [List.nil_append] at hout
  subst hout
  exact ⟨addrs, hres, Shuffle_perm draw _ _⟩

/-- The loop body fails exactly on a normalized token with a detected port that does not
split, and then wraps the split error in a message naming the normalized token. -/
theorem resolveToken_error (lib : NetPkg) (port : Int) (a : String) (e : GoError)
    (h : resolveToken lib port a = .error e) :
    lib.AddressContainsPort (lib.FormatAddress a) = true ∧
    ∃ cause, SplitHostPort (lib.FormatAddress a) = .error cause ∧
      e = .errorf ("failed to derive server name from address " ++ lib.FormatAddress a
        ++ ": " ++ cause.Error) cause := by
  unfold resolveToken at h
  cases hc : lib.AddressContainsPort (lib.FormatAddress a) with
  | false => simp [hc] at h
  | true =>
    simp only [hc, if_true] at h
    cases hs : SplitHostPort (lib.FormatAddress a) with
    | ok hp => rw [hs] at h; cases h
    | error cause =>
      rw [hs] at h
      simp only [Except.error.injEq] at h
      exact ⟨rfl, cause, rfl, h.symm⟩

theorem resolveToken_of_split_error (lib : NetPkg) (port : Int) (a : String) (cause : GoError)
    (hc : lib.AddressContainsPort (lib.FormatAddress a) = true)
    (hs : SplitHostPort (lib.FormatAddress a) = .error cause) :
    resolveToken lib port a =
      .error (.errorf ("failed to derive server name from address " ++ lib.FormatAddress a
        ++ ": " ++ cause.Error) cause) := by
  simp [resolveToken, hc, hs]

theorem digit_toNat (d : Nat) (h : d < 10) : (Char.ofNat (48 + d)).toNat = 48 + d := by
  interval_cases d <;> rfl

theorem digit_ne_minus (d : Nat) (h : d < 10) : Char.ofNat (48 + d) ≠ '-' := by
  interval_cases d <;> decide

/-- With enough fuel the digits printed for `n` have the value `n`. -/
theorem digitsValue_decimalDigits (fuel n : Nat) (h : n < fuel) :
    digitsValue (decimalDigits fuel n) = n := by
  induction fuel generalizing n with
  | zero => omega
  | succ fuel ih =>
    rw [decimalDigits]
    by_cases hn : n < 10
    · simp [hn, digitsValue, digit_toNat n hn]
    · rw [if_neg hn]
      have hrec := ih (n / 10) (by omega)
      unfold digitsValue at hrec ⊢
      rw [List.foldl_append, hrec]
      simp only [List.foldl_cons, List.foldl_nil]
      rw [digit_toNat _ (Nat.mod_lt _ (by norm_num))]
      omega

theorem minus_not_mem_decimalDigits (fuel n : Nat) : '-' ∉ decimalDigits fuel n := by
  induction fuel generalizing n with
  | zero => simp [decimalDigits]
  | succ fuel ih =>
    rw [decimalDigits]
    by_cases hn : n < 10
    · simp only [hn, if_true, List.mem_singleton]
      exact fun h => digit_ne_minus n hn h.symm
    · rw [if_neg hn, List.mem_append, List.mem_singleton]
      rintro (h | h)
      · exact ih _ h
      · exact digit_ne_minus _ (Nat.mod_lt _ (by norm_num)) h.symm

/-- Distinct integers have distinct decimal renderings. -/
theorem Itoa_injective : Function.Injective Itoa := by
  intro p q h
  have hd := congrArg String.data h
  cases p with
  | ofNat m =>
    cases q with
    | ofNat k =>
      simp only [Itoa] at hd
      have := congrArg digitsValue hd
      rw [digitsValue_decimalDigits _ _ (by omega),
        digitsValue_decimalDigits _ _ (by omega)] at this
      rw [this]
    | negSucc k =>
      simp only [Itoa] at hd
      exact absurd (hd ▸ List.mem_cons_self _ _) (minus_not_mem_decimalDigits _ _)
  | negSucc m =>
    cases q with
    | ofNat k =>
      simp only [Itoa] at hd
      exact absurd (hd.symm ▸ List.mem_cons_self _ _) (minus_not_mem_decimalDigits _ _)
    | negSucc k =>
      simp only [Itoa, List.cons.injEq, true_and] at hd
      have := congrArg digitsValue hd
      rw [digitsValue_decimalDigits _ _ (by omega),
        digitsValue_decimalDigits _ _ (by omega)] at this
      have hmk : m = k := by omega
      rw [hmk]

/-- `Build` passes on what `start` returns. -/
theorem Build_eq (lib : NetPkg) (draw : Nat → Nat) (b : roundRobinResolverBuilder)
    (target : Target) (cc : ClientConn) (opts : BuildOptions) :
    b.Build lib draw target cc opts =
      (match (roundRobinResolver.start lib draw ⟨target, cc, b.port⟩).1 with
        | some err => .error err
        | none => .ok ⟨target, cc, b.port⟩,
       (roundRobinResolver.start lib draw ⟨target, cc, b.port⟩).2) := by
  unfold roundRobinResolverBuilder.Build
  rcases h : roundRobinResolver.start lib draw ⟨target, cc, b.port⟩ with ⟨_ | err, calls⟩ <;>
    simp only [h]

/-! ## Claims -/

/-- C1: a token whose normalized form is not detected as containing a port resolves, for
every bound port `p`, to the address whose server name is the whole normalized token and
whose dial address is the normalized token joined with the decimal rendering of `p`, and
every state `start` publishes holds that address.  For a package that returns `10.0.0.1`
unchanged and detects no port in it, the target `10.0.0.1` with bound port 50000 makes
`start` publish exactly the address with dial address `10.0.0.1:50000` and server name
`10.0.0.1`. -/
theorem start_token_without_port (lib : NetPkg) (draw : Nat → Nat) (cc : ClientConn) :
    (∀ (target : Target) (p : Int) (a : String), a ∈ stringsSplitComma target.Endpoint →
      lib.AddressContainsPort (lib.FormatAddress a) = false →
      resolveToken lib p a =
        .ok ⟨lib.FormatAddress a, JoinHostPort (lib.FormatAddress a) (Itoa p)⟩ ∧
      ∀ st, Call.updateState st ∈ (roundRobinResolver.start lib draw ⟨target, cc, p⟩).2 →
        (⟨lib.FormatAddress a, JoinHostPort (lib.FormatAddress a) (Itoa p)⟩ : Address)
          ∈ st.Addresses) ∧
    (lib.FormatAddress "10.0.0.1" = "10.0.0.1" →
      lib.AddressContainsPort "10.0.0.1" = false →
      ∀ scheme authority : String,
        (∀ st, Call.updateState st ∈ (roundRobinResolver.start lib draw
            ⟨⟨scheme, authority, "10.0.0.1"⟩, cc, 50000⟩).2 →
          st.Addresses = [⟨"10.0.0.1", "10.0.0.1:50000"⟩]) ∧
        ((cc.ParseServiceConfig serviceConfigJSON).Err = none →
          (roundRobinResolver.start lib draw ⟨⟨scheme, authority, "10.0.0.1"⟩, cc, 50000⟩).2 =
            [.parseServiceConfig serviceConfigJSON,
             .updateState ⟨[⟨"10.0.0.1", "10.0.0.1:50000"⟩],
               cc.ParseServiceConfig serviceConfigJSON⟩])) := by
  have key : ∀ (p : Int) (a : String), lib.AddressContainsPort (lib.FormatAddress a) = false →
      resolveToken lib p a =
        .ok ⟨lib.FormatAddress a, JoinHostPort (lib.FormatAddress a) (Itoa p)⟩ := by
    intro p a h
    simp [resolveToken, h]
  refine ⟨fun target p a ha h => ⟨key p a h, fun st hst => ?_⟩, ?_⟩
  · exact published_mem lib draw ⟨target, cc, p⟩ a _ ha (key p a h) st hst
  · intro hf hc scheme authority
    have hx : resolveToken lib 50000 "10.0.0.1" = .ok ⟨"10.0.0.1", "10.0.0.1:50000"⟩ := by
      rw [key 50000 "10.0.0.1" (by rw [hf]; exact hc), hf]
      rfl
    have := start_single_token lib draw ⟨⟨scheme, authority, "10.0.0.1"⟩, cc, 50000⟩
      "10.0.0.1" _ (show stringsSplitComma "10.0.0.1" = ["10.0.0.1"] by decide) hx
    exact ⟨this.1, fun hp => by rw [this.2 hp]⟩

/-- C1 at the package `talosNet` and an accepting handle: the hypotheses hold and `start`
publishes the one address. -/
theorem start_token_without_port_witness :
    talosNet.FormatAddress "10.0.0.1" = "10.0.0.1" ∧
    talosNet.AddressContainsPort "10.0.0.1" = false ∧
    (roundRobinResolver.start talosNet (fun _ => 0)
        ⟨⟨"taloslist-50000", "", "10.0.0.1"⟩, acceptingConn, 50000⟩).2 =
      [.parseServiceConfig serviceConfigJSON,
       .updateState ⟨[⟨"10.0.0.1", "10.0.0.1:50000"⟩], ⟨serviceConfigJSON, none⟩⟩] :=
  ⟨by decide, by decide,
    ((start_token_without_port talosNet (fun _ => 0) acceptingConn).2 (by decide) (by decide)
      "taloslist-50000" "").2 rfl⟩

/-- C2: a token whose normalized form is detected as containing a port and splits into
`(host, port)` resolves, whatever the bound port, to the address whose dial address is the
normalized token unchanged and whose server name is `host`, and every state `start`
publishes holds that address.  For a package that returns `10.0.0.1:9000` unchanged and
detects a port in it, the target `10.0.0.1:9000` with bound port 50000 makes `start`
publish exactly the address with dial address `10.0.0.1:9000` and server name
`10.0.0.1`. -/
theorem start_token_with_port (lib : NetPkg) (draw : Nat → Nat) (cc : ClientConn) :
    (∀ (target : Target) (a host prt : String), a ∈ stringsSplitComma target.Endpoint →
      lib.AddressContainsPort (lib.FormatAddress a) = true →
      SplitHostPort (lib.FormatAddress a) = .ok (host, prt) →
      ∀ p : Int, resolveToken lib p a = .ok ⟨host, lib.FormatAddress a⟩ ∧
        ∀ st, Call.updateState st ∈ (roundRobinResolver.start lib draw ⟨target, cc, p⟩).2 →
          (⟨host, lib.FormatAddress a⟩ : Address) ∈ st.Addresses) ∧
    (lib.FormatAddress "10.0.0.1:9000" = "10.0.0.1:9000" →
      lib.AddressContainsPort "10.0.0.1:9000" = true →
      ∀ scheme authority : String,
        (∀ st, Call.updateState st ∈ (roundRobinResolver.start lib draw
            ⟨⟨scheme, authority, "10.0.0.1:9000"⟩, cc, 50000⟩).2 →
          st.Addresses = [⟨"10.0.0.1", "10.0.0.1:9000"⟩]) ∧
        ((cc.ParseServiceConfig serviceConfigJSON).Err = none →
          (roundRobinResolver.start lib draw
              ⟨⟨scheme, authority, "10.0.0.1:9000"⟩, cc, 50000⟩).2 =
            [.parseServiceConfig serviceConfigJSON,
             .updateState ⟨[⟨"10.0.0.1", "10.0.0.1:9000"⟩],
               cc.ParseServiceConfig serviceConfigJSON⟩])) := by
  have key : ∀ (p : Int) (a host prt : String),
      lib.AddressContainsPort (lib.FormatAddress a) = true →
      SplitHostPort (lib.FormatAddress a) = .ok (host, prt) →
      resolveToken lib p a = .ok ⟨host, lib.FormatAddress a⟩ := by
    intro p a host prt h hsplit
    simp [resolveToken, h, hsplit]
  refine ⟨fun target a host prt ha h hsplit p => ⟨key p a host prt h hsplit, fun st hst => ?_⟩, ?_⟩
  · exact published_mem lib draw ⟨target, cc, p⟩ a _ ha (key p a host prt h hsplit) st hst
  · intro hf hc scheme authority
    have hx : resolveToken lib 50000 "10.0.0.1:9000" = .ok ⟨"10.0.0.1", "10.0.0.1:9000"⟩ := by
      rw [key 50000 "10.0.0.1:9000" "10.0.0.1" "9000" (by rw [hf]; exact hc)
        (by rw [hf]; rfl), hf]
    have := start_single_token lib draw ⟨⟨scheme, authority, "10.0.0.1:9000"⟩, cc, 50000⟩
      "10.0.0.1:9000" _
      (show stringsSplitComma "10.0.0.1:9000" = ["10.0.0.1:9000"] by decide) hx
    exact ⟨this.1, fun hp => by rw [this.2 hp]⟩

/-- C2 at the package `talosNet` and an accepting handle: the hypotheses hold and `start`
publishes the one address, the explicit port kept. -/
theorem start_token_with_port_witness :
    talosNet.FormatAddress "10.0.0.1:9000" = "10.0.0.1:9000" ∧
    talosNet.AddressContainsPort "10.0.0.1:9000" = true ∧
    (roundRobinResolver.start talosNet (fun _ => 0)
        ⟨⟨"taloslist-50000", "", "10.0.0.1:9000"⟩, acceptingConn, 50000⟩).2 =
      [.parseServiceConfig serviceConfigJSON,
       .updateState ⟨[⟨"10.0.0.1", "10.0.0.1:9000"⟩], ⟨serviceConfigJSON, none⟩⟩] :=
  ⟨by decide, by decide,
    ((start_token_with_port talosNet (fun _ => 0) acceptingConn).2 (by decide) (by decide)
      "taloslist-50000" "").2 rfl⟩

/-- C3 (where it fails): for a package whose `FormatAddress` drops the bracket in front of
`[::1]:9000`, returning `::1]:9000`, and detects a port in that text, `start` on the
target `[::1]:9000` returns, for every bound port and every handle, the error of
`net.SplitHostPort` (too many colons) wrapped in its message, makes no call on the handle
and so publishes no address. -/
theorem start_bracketed_ipv6_with_port_fails (lib : NetPkg) (draw : Nat → Nat)
    (cc : ClientConn) (p : Int) (scheme authority : String)
    (hf : lib.FormatAddress "[::1]:9000" = "::1]:9000")
    (hc : lib.AddressContainsPort "::1]:9000" = true) :
    roundRobinResolver.start lib draw ⟨⟨scheme, authority, "[::1]:9000"⟩, cc, p⟩ =
      (some (.errorf ("failed to derive server name from address ::1]:9000: "
          ++ "address ::1]:9000: too many colons in address")
        (.addrError "too many colons in address" "::1]:9000")), []) := by
  have hs : SplitHostPort "::1]:9000" =
      .error (.addrError "too many colons in address" "::1]:9000") := rfl
  have hx : resolveToken lib p "[::1]:9000" =
      .error (.errorf ("failed to derive server name from address ::1]:9000: "
          ++ "address ::1]:9000: too many colons in address")
        (.addrError "too many colons in address" "::1]:9000")) := by
    simp only [resolveToken, hf, hc, hs, if_true]
    rfl
  refine start_of_error lib draw ⟨⟨scheme, authority, "[::1]:9000"⟩, cc, p⟩ _ ?_
  rw [show stringsSplitComma "[::1]:9000" = ["[::1]:9000"] by decide, resolveLoop, hx]

/-- C3 at the package `talosNet`, an accepting handle and the port 50000: the hypotheses
hold and `start` fails without a call. -/
theorem start_bracketed_ipv6_with_port_fails_witness :
    talosNet.FormatAddress "[::1]:9000" = "::1]:9000" ∧
    talosNet.AddressContainsPort "::1]:9000" = true ∧
    roundRobinResolver.start talosNet (fun _ => 0)
        ⟨⟨"taloslist-50000", "", "[::1]:9000"⟩, acceptingConn, 50000⟩ =
      (some (.errorf ("failed to derive server name from address ::1]:9000: "
          ++ "address ::1]:9000: too many colons in address")
        (.addrError "too many colons in address" "::1]:9000")), []) :=
  ⟨by decide, by decide,
    start_bracketed_ipv6_with_port_fails talosNet (fun _ => 0) acceptingConn 50000
      "taloslist-50000" "" (by decide) (by decide)⟩

/-- C4 as stated fails: with the package `talosNet`, the bound port 50000 and an accepting
handle, `Build` on the target `a:bad:port` returns the resolver, not an error, after
calling `UpdateState` with the dial address `[a:bad:port]:50000`. -/
theorem Build_malformed_target_succeeds :
    roundRobinResolverBuilder.Build talosNet (fun _ => 0) ⟨50000, "taloslist-50000"⟩
        ⟨"taloslist-50000", "", "a:bad:port"⟩ acceptingConn ⟨⟩ =
      (.ok ⟨⟨"taloslist-50000", "", "a:bad:port"⟩, acceptingConn, 50000⟩,
       [.parseServiceConfig serviceConfigJSON,
        .updateState ⟨[⟨"a:bad:port", "[a:bad:port]:50000"⟩], ⟨serviceConfigJSON, none⟩⟩]) ∧
    ¬ ∃ err, (roundRobinResolverBuilder.Build talosNet (fun _ => 0)
        ⟨50000, "taloslist-50000"⟩ ⟨"taloslist-50000", "", "a:bad:port"⟩
        acceptingConn ⟨⟩).1 = .error err := by
  have h : roundRobinResolverBuilder.Build talosNet (fun _ => 0) ⟨50000, "taloslist-50000"⟩
        ⟨"taloslist-50000", "", "a:bad:port"⟩ acceptingConn ⟨⟩ =
      (.ok ⟨⟨"taloslist-50000", "", "a:bad:port"⟩, acceptingConn, 50000⟩,
       [.parseServiceConfig serviceConfigJSON,
        .updateState ⟨[⟨"a:bad:port", "[a:bad:port]:50000"⟩], ⟨serviceConfigJSON, none⟩⟩]) :=
    rfl
  refine ⟨h, ?_⟩
  rintro ⟨err, herr⟩
  rw [h] at herr
  cases herr

/-- C4, amended: for a package that returns `a:bad:port` unchanged and detects no port in
it, and for every bound port `p`, `Build` on the target `a:bad:port` does not fail on the
token: the whole token is the server name and the dial address is `[a:bad:port]:p`, the
only address of any state published; once the directive parses `UpdateState` is called
with it, and `Build` returns the resolver when the handle accepts the state, the error of
the handle otherwise. -/
theorem Build_colon_host_target (lib : NetPkg) (draw : Nat → Nat)
    (b : roundRobinResolverBuilder) (cc : ClientConn) (opts : BuildOptions)
    (scheme authority : String)
    (hf : lib.FormatAddress "a:bad:port" = "a:bad:port")
    (hc : lib.AddressContainsPort "a:bad:port" = false) :
    (∀ st, Call.updateState st ∈
        (b.Build lib draw ⟨scheme, authority, "a:bad:port"⟩ cc opts).2 →
      st.Addresses = [⟨"a:bad:port", "[a:bad:port]:" ++ Itoa b.port⟩]) ∧
    ((cc.ParseServiceConfig serviceConfigJSON).Err = none →
      (b.Build lib draw ⟨scheme, authority, "a:bad:port"⟩ cc opts).2 =
        [.parseServiceConfig serviceConfigJSON,
         .updateState ⟨[⟨"a:bad:port", "[a:bad:port]:" ++ Itoa b.port⟩],
           cc.ParseServiceConfig serviceConfigJSON⟩] ∧
      (b.Build lib draw ⟨scheme, authority, "a:bad:port"⟩ cc opts).1 =
        match cc.UpdateState ⟨[⟨"a:bad:port", "[a:bad:port]:" ++ Itoa b.port⟩],
            cc.ParseServiceConfig serviceConfigJSON⟩ with
        | some err => .error err
        | none => .ok ⟨⟨scheme, authority, "a:bad:port"⟩, cc, b.port⟩) := by
  have hj : JoinHostPort "a:bad:port" (Itoa b.port) = "[a:bad:port]:" ++ Itoa b.port := by
    apply String.ext
    have : (indexByte ':' "a:bad:port".data).isSome = true := by decide
    simp only [JoinHostPort, this, if_true, String.data_append]
    rfl
  have hx : resolveToken lib b.port "a:bad:port" =
      .ok ⟨"a:bad:port", "[a:bad:port]:" ++ Itoa b.port⟩ := by
    simp only [resolveToken, hf, hc, hj]
    rfl
  have h := start_single_token lib draw ⟨⟨scheme, authority, "a:bad:port"⟩, cc, b.port⟩
    "a:bad:port" _ (show stringsSplitComma "a:bad:port" = ["a:bad:port"] by decide) hx
  rw [Build_eq]
  refine ⟨h.1, fun hp => ?_⟩
  rw [h.2 hp]
  exact ⟨rfl, rfl⟩

/-- C4, amended, at the package `talosNet`, an accepting handle and the port 50000: the
hypotheses hold and the one address is published. -/
theorem Build_colon_host_target_witness :
    talosNet.FormatAddress "a:bad:port" = "a:bad:port" ∧
    talosNet.AddressContainsPort "a:bad:port" = false ∧
    (roundRobinResolverBuilder.Build talosNet (fun _ => 0) ⟨50000, "taloslist-50000"⟩
        ⟨"taloslist-50000", "", "a:bad:port"⟩ acceptingConn ⟨⟩).2 =
      [.parseServiceConfig serviceConfigJSON,
       .updateState ⟨[⟨"a:bad:port", "[a:bad:port]:" ++ Itoa 50000⟩],
         ⟨serviceConfigJSON, none⟩⟩] :=
  ⟨by decide, by decide,
    ((Build_colon_host_target talosNet (fun _ => 0) ⟨50000, "taloslist-50000"⟩ acceptingConn
      ⟨⟩ "taloslist-50000" "" (by decide) (by decide)).2 rfl).1⟩

/-- C5: whenever `start` reaches publication, the address list handed to `UpdateState`
has exactly as many entries as the target has comma-separated tokens, that is the number
of commas of the target plus one (empty tokens counted, nothing trimmed); so the published
list is never empty. -/
theorem published_length (lib : NetPkg) (draw : Nat → Nat) (r : roundRobinResolver)
    (st : State) (h : Call.updateState st ∈ (r.start lib draw).2) :
    st.Addresses.length = (stringsSplitComma r.target.Endpoint).length ∧
    st.Addresses.length = r.target.Endpoint.data.count ',' + 1 ∧
    st.Addresses ≠ [] := by
  obtain ⟨res, hres, hperm⟩ := published_perm lib draw r st h
  have hlen : st.Addresses.length = (stringsSplitComma r.target.Endpoint).length := by
    rw [hperm.length_eq, hres.length_eq]
  refine ⟨hlen, by rw [hlen, stringsSplitComma_length], ?_⟩
  intro hnil
  rw [hnil, stringsSplitComma_length] at hlen
  simp at hlen

/-- C5 at a target with an empty token in the middle: three addresses are published. -/
theorem published_length_witness :
    ∃ st, Call.updateState st ∈ (roundRobinResolver.start talosNet (fun _ => 0)
        ⟨⟨"taloslist-50000", "", "a,,b:1"⟩, acceptingConn, 50000⟩).2 ∧
      st.Addresses.length = 3 :=
  ⟨⟨[⟨"", ":50000"⟩, ⟨"b", "b:1"⟩, ⟨"a", "a:50000"⟩], ⟨serviceConfigJSON, none⟩⟩, by decide,
    (published_length talosNet (fun _ => 0)
      ⟨⟨"taloslist-50000", "", "a,,b:1"⟩, acceptingConn, 50000⟩ _ (by decide)).2.1⟩

/-- C6 (where it fails): for a package that puts the bare IPv6 literal `::1` in brackets
and detects no port in `[::1]`, `start` with bound port 50000 and an accepting handle
publishes for the target `::1` the dial address `[[::1]]:50000`, which
`net.SplitHostPort` rejects: the published dial address does not split into a host and a
port. -/
theorem start_bare_ipv6_double_brackets (lib : NetPkg) (draw : Nat → Nat) (cc : ClientConn)
    (scheme authority : String)
    (hf : lib.FormatAddress "::1" = "[::1]")
    (hc : lib.AddressContainsPort "[::1]" = false)
    (hp : (cc.ParseServiceConfig serviceConfigJSON).Err = none) :
    (roundRobinResolver.start lib draw ⟨⟨scheme, authority, "::1"⟩, cc, 50000⟩).2 =
      [.parseServiceConfig serviceConfigJSON,
       .updateState ⟨[⟨"[::1]", "[[::1]]:50000"⟩], cc.ParseServiceConfig serviceConfigJSON⟩] ∧
    SplitHostPort "[[::1]]:50000" =
      .error (.addrError "missing port in address" "[[::1]]:50000") := by
  have hx : resolveToken lib 50000 "::1" = .ok ⟨"[::1]", "[[::1]]:50000"⟩ := by
    simp only [resolveToken, hf, hc]
    rfl
  have := start_single_token lib draw ⟨⟨scheme, authority, "::1"⟩, cc, 50000⟩
    "::1" _ (show stringsSplitComma "::1" = ["::1"] by decide) hx
  exact ⟨by rw [this.2 hp], rfl⟩

/-- C6 at the package `talosNet` and an accepting handle. -/
theorem start_bare_ipv6_double_brackets_witness :
    talosNet.FormatAddress "::1" = "[::1]" ∧
    talosNet.AddressContainsPort "[::1]" = false ∧
    (roundRobinResolver.start talosNet (fun _ => 0)
        ⟨⟨"taloslist-50000", "", "::1"⟩, acceptingConn, 50000⟩).2 =
      [.parseServiceConfig serviceConfigJSON,
       .updateState ⟨[⟨"[::1]", "[[::1]]:50000"⟩], ⟨serviceConfigJSON, none⟩⟩] :=
  ⟨by decide, by decide,
    (start_bare_ipv6_double_brackets talosNet (fun _ => 0) acceptingConn "taloslist-50000" ""
      (by decide) (by decide) rfl).1⟩

/-- C7: if some token's normalized form is detected as containing a port but does not
split, `start` returns an error whose message contains the normalized form of the first
such token in target order, and makes no call on the connection handle, whatever the
tokens before it resolved to. -/
theorem start_split_failure (lib : NetPkg) (draw : Nat → Nat) (r : roundRobinResolver)
    (h : ∃ a ∈ stringsSplitComma r.target.Endpoint,
      lib.AddressContainsPort (lib.FormatAddress a) = true ∧
      ∃ cause, SplitHostPort (lib.FormatAddress a) = .error cause) :
    ∃ pre a post cause err,
      stringsSplitComma r.target.Endpoint = pre ++ a :: post ∧
      (∀ b ∈ pre, ¬ (lib.AddressContainsPort (lib.FormatAddress b) = true ∧
        ∃ c, SplitHostPort (lib.FormatAddress b) = .error c)) ∧
      lib.AddressContainsPort (lib.FormatAddress a) = true ∧
      SplitHostPort (lib.FormatAddress a) = .error cause ∧
      r.start lib draw = (some err, []) ∧
      Contains err.Error (lib.FormatAddress a) := by
  obtain ⟨a₀, ha₀, hc₀, cause₀, hs₀⟩ := h
  cases hl : resolveLoop lib r.port (stringsSplitComma r.target.Endpoint) [] with
  | ok addrs =>
    obtain ⟨res, _, hres⟩ := resolveLoop_ok lib r.port _ _ _ hl
    obtain ⟨y, _, hy⟩ := forall₂_mem_left hres ha₀
    rw [resolveToken_of_split_error lib r.port a₀ cause₀ hc₀ hs₀] at hy
    cases hy
  | error err =>
    obtain ⟨pre, a, post, hsplit, hpre, ha⟩ := resolveLoop_error lib r.port _ _ _ hl
    obtain ⟨hc, cause, hs, rfl⟩ := resolveToken_error lib r.port a _ ha
    refine ⟨pre, a, post, cause, _, hsplit, ?_, hc, hs, start_of_error lib draw r _ hl, ?_⟩
    · rintro b hb ⟨hcb, c, hsb⟩
      obtain ⟨x, hx⟩ := hpre b hb
      rw [resolveToken_of_split_error lib r.port b c hcb hsb] at hx
      cases hx
    · exact ⟨"failed to derive server name from address ".data, (": " ++ cause.Error).data,
        by simp [GoError.Error, String.data_append]⟩

/-- C7 at the package `talosNet` and a target whose first token resolves and whose second,
`[::1]:9000`, is normalized to `::1]:9000` and does not split. -/
theorem start_split_failure_witness :
    ∃ err, roundRobinResolver.start talosNet (fun _ => 0)
        ⟨⟨"taloslist-50000", "", "10.0.0.1,[::1]:9000"⟩, acceptingConn, 50000⟩ = (some err, []) ∧
      Contains err.Error "::1]:9000" := by
  obtain ⟨pre, a, post, cause, err, hsplit, _, _, _, hstart, hcont⟩ :=
    start_split_failure talosNet (fun _ => 0)
      ⟨⟨"taloslist-50000", "", "10.0.0.1,[::1]:9000"⟩, acceptingConn, 50000⟩
      ⟨"[::1]:9000", by decide, by decide, _, rfl⟩
  refine ⟨err, hstart, ?_⟩
  have h2 : roundRobinResolver.start talosNet (fun _ => 0)
      ⟨⟨"taloslist-50000", "", "10.0.0.1,[::1]:9000"⟩, acceptingConn, 50000⟩ =
      (some (.errorf ("failed to derive server name from address ::1]:9000: "
          ++ "address ::1]:9000: too many colons in address")
        (.addrError "too many colons in address" "::1]:9000")), []) := by decide
  rw [h2] at hstart
  cases hstart
  exact ⟨"failed to derive server name from address ".data,
    ": address ::1]:9000: too many colons in address".data, by decide⟩

/-- C8: the address list `start` publishes is a permutation of the list obtained by
resolving the tokens one by one in token order; hence two resolutions of the same target
and port, whatever their shuffles and connection handles, publish lists with the same
members, equal as multisets. -/
theorem published_perm_of_tokens (lib : NetPkg) (draw₁ draw₂ : Nat → Nat)
    (cc₁ cc₂ : ClientConn) (target : Target) (port : Int) (st₁ st₂ : State)
    (h₁ : Call.updateState st₁ ∈ (roundRobinResolver.start lib draw₁ ⟨target, cc₁, port⟩).2)
    (h₂ : Call.updateState st₂ ∈ (roundRobinResolver.start lib draw₂ ⟨target, cc₂, port⟩).2) :
    (∃ res, List.Forall₂ (fun a x => resolveToken lib port a = .ok x)
        (stringsSplitComma target.Endpoint) res ∧ st₁.Addresses.Perm res) ∧
    st₁.Addresses.Perm st₂.Addresses ∧
    (st₁.Addresses : Multiset Address) = (st₂.Addresses : Multiset Address) := by
  obtain ⟨res₁, hres₁, hperm₁⟩ := published_perm lib draw₁ ⟨target, cc₁, port⟩ st₁ h₁
  obtain ⟨res₂, hres₂, hperm₂⟩ := published_perm lib draw₂ ⟨target, cc₂, port⟩ st₂ h₂
  have huniq : Relator.RightUnique (fun (a : String) (x : Address) =>
      resolveToken lib port a = .ok x) := by
    intro a x y hx hy
    rw [hx] at hy
    cases hy
    rfl
  have heq : res₁ = res₂ := List.right_unique_forall₂' huniq hres₁ hres₂
  subst heq
  have hperm : st₁.Addresses.Perm st₂.Addresses := hperm₁.trans hperm₂.symm
  exact ⟨⟨res₁, hres₁, hperm₁⟩, hperm, Multiset.coe_eq_coe.mpr hperm⟩

/-- C8 at two resolutions of the target `a,b:1` that shuffle differently. -/
theorem published_perm_of_tokens_witness :
    List.Perm [(⟨"b", "b:1"⟩ : Address), ⟨"a", "a:50000"⟩] [⟨"a", "a:50000"⟩, ⟨"b", "b:1"⟩] :=
  (published_perm_of_tokens talosNet (fun _ => 0) (fun _ => 1) acceptingConn acceptingConn
    ⟨"taloslist-50000", "", "a,b:1"⟩ 50000
    ⟨[⟨"b", "b:1"⟩, ⟨"a", "a:50000"⟩], ⟨serviceConfigJSON, none⟩⟩
    ⟨[⟨"a", "a:50000"⟩, ⟨"b", "b:1"⟩], ⟨serviceConfigJSON, none⟩⟩
    (by decide) (by decide)).2.1

/-- C9: whatever the target and the bound port, the only text `start` hands to
`ParseServiceConfig` is the fixed document `serviceConfigJSON`, handed over whenever the
tokens all resolve; that document differs from
`{"loadBalancingConfig": [{"round_robin": {}}]}` in layout only; and the `ServiceConfig`
of a published state is the handle's parse result for it. -/
theorem start_service_config (lib : NetPkg) (draw : Nat → Nat) (r : roundRobinResolver) :
    (∀ json, Call.parseServiceConfig json ∈ (r.start lib draw).2 → json = serviceConfigJSON) ∧
    (∀ addrs, resolveLoop lib r.port (stringsSplitComma r.target.Endpoint) [] = .ok addrs →
      (r.start lib draw).2.head? = some (.parseServiceConfig serviceConfigJSON)) ∧
    jsonEquivalent serviceConfigJSON roundRobinDeclaration ∧
    (∀ st, Call.updateState st ∈ (r.start lib draw).2 →
      st.ServiceConfig = r.cc.ParseServiceConfig serviceConfigJSON) := by
  refine ⟨?_, ?_, by decide, ?_⟩
  · intro json h
    unfold roundRobinResolver.start at h
    cases hl : resolveLoop lib r.port (stringsSplitComma r.target.Endpoint) [] with
    | error e => rw [hl] at h; simp at h
    | ok addrs =>
      rw [hl] at h
      cases hp : (r.cc.ParseServiceConfig serviceConfigJSON).Err with
      | some e => simpa [hp] using h
      | none => simpa [hp] using h
  · intro addrs hl
    unfold roundRobinResolver.start
    rw [hl]
    cases hp : (r.cc.ParseServiceConfig serviceConfigJSON).Err <;> simp [hp]
  · intro st h
    obtain ⟨addrs, _, _, rfl⟩ := start_published lib draw r st h
    rfl

/-- C9 at two targets and two ports: the same document is handed over. -/
theorem start_service_config_witness :
    (roundRobinResolver.start talosNet (fun _ => 0)
        ⟨⟨"taloslist-50000", "", "a,b:1"⟩, acceptingConn, 50000⟩).2.head? =
      some (.parseServiceConfig serviceConfigJSON) ∧
    (roundRobinResolver.start talosNet (fun _ => 0)
        ⟨⟨"taloslist-1", "", "10.0.0.1"⟩, acceptingConn, 1⟩).2.head? =
      some (.parseServiceConfig serviceConfigJSON) :=
  ⟨(start_service_config talosNet (fun _ => 0)
      ⟨⟨"taloslist-50000", "", "a,b:1"⟩, acceptingConn, 50000⟩).2.1
      [⟨"a", "a:50000"⟩, ⟨"b", "b:1"⟩] rfl,
   (start_service_config talosNet (fun _ => 0)
      ⟨⟨"taloslist-1", "", "10.0.0.1"⟩, acceptingConn, 1⟩).2.1
      [⟨"10.0.0.1", "10.0.0.1:1"⟩] rfl⟩

/-- C10: `RegisterRoundRobinResolver(port)` returns `taloslist-` followed by the decimal
rendering of the port, registers a builder bound to that port whose `Scheme()` is the
returned string, and the scheme determines the port: equal schemes come from equal
ports. -/
theorem RegisterRoundRobinResolver_scheme :
    (∀ (port : Int) (reg : Registry),
      (RegisterRoundRobinResolver port reg).1 = "taloslist-" ++ Itoa port ∧
      ∃ b, (RegisterRoundRobinResolver port reg).2 = b :: reg ∧ b.port = port ∧
        b.Scheme = (RegisterRoundRobinResolver port reg).1) ∧
    (∀ (p q : Int) (reg₁ reg₂ : Registry),
      (RegisterRoundRobinResolver p reg₁).1 = (RegisterRoundRobinResolver q reg₂).1 → p = q) := by
  refine ⟨fun port reg => ⟨rfl, _, rfl, rfl, rfl⟩, ?_⟩
  intro p q reg₁ reg₂ h
  simp only [RegisterRoundRobinResolver, roundRobinResolverScheme] at h
  have hdata := congrArg String.data h
  simp only [String.data_append, List.append_cancel_left_eq] at hdata
  exact Itoa_injective (String.ext hdata)

/-- C10 at the ports 50000 and 50001: the scheme is `taloslist-50000`, and the two
schemes differ. -/
theorem RegisterRoundRobinResolver_scheme_witness :
    (RegisterRoundRobinResolver 50000 []).1 = "taloslist-50000" ∧
    (RegisterRoundRobinResolver 50000 []).1 ≠ (RegisterRoundRobinResolver 50001 []).1 :=
  ⟨by decide, fun h =>
    absurd (RegisterRoundRobinResolver_scheme.2 50000 50001 [] [] h) (by decide)⟩

/-! ## Build, failures at the handle, the empty target, the lifetime -/

/-- The calls `ResolveNow` and `Close` reach the handle never and leave the resolver as it
is. -/
theorem run_eq (r : roundRobinResolver) (ops : List ResolverCall) : r.run ops = (r, []) := by
  induction ops with
  | nil => rfl
  | cons op rest ih =>
    cases op <;>
      simp [roundRobinResolver.run, roundRobinResolver.ResolveNow, roundRobinResolver.Close, ih]

/-- C11: `Build` returns a resolver (the one it constructed, with a nil error) exactly when
`start` returns nil; otherwise it returns no resolver and exactly the error `start`
returned; the calls on the handle are those of `start`; and when the tokens resolve and
the directive parses, the error `UpdateState` reports is the error `Build` returns,
unchanged. -/
theorem Build_returns_start_result (lib : NetPkg) (draw : Nat → Nat)
    (b : roundRobinResolverBuilder) (target : Target) (cc : ClientConn) (opts : BuildOptions) :
    ((∃ r, (b.Build lib draw target cc opts).1 = .ok r) ↔
      (roundRobinResolver.start lib draw ⟨target, cc, b.port⟩).1 = none) ∧
    ((roundRobinResolver.start lib draw ⟨target, cc, b.port⟩).1 = none →
      (b.Build lib draw target cc opts).1 = .ok ⟨target, cc, b.port⟩) ∧
    (∀ err, (roundRobinResolver.start lib draw ⟨target, cc, b.port⟩).1 = some err ↔
      (b.Build lib draw target cc opts).1 = .error err) ∧
    (b.Build lib draw target cc opts).2 =
      (roundRobinResolver.start lib draw ⟨target, cc, b.port⟩).2 ∧
    (∀ addrs err,
      resolveLoop lib b.port (stringsSplitComma target.Endpoint) [] = .ok addrs →
      (cc.ParseServiceConfig serviceConfigJSON).Err = none →
      cc.UpdateState ⟨Shuffle draw addrs.length addrs,
        cc.ParseServiceConfig serviceConfigJSON⟩ = some err →
      (b.Build lib draw target cc opts).1 = .error err) := by
  rw [Build_eq]
  refine ⟨?_, ?_, ?_, rfl, ?_⟩
  · cases h : (roundRobinResolver.start lib draw ⟨target, cc, b.port⟩).1 <;> simp
  · intro h
    simp only [h]
  · intro err
    cases h : (roundRobinResolver.start lib draw ⟨target, cc, b.port⟩).1 <;> simp
  · intro addrs err hl hp hu
    have hs := start_of_ok lib draw ⟨target, cc, b.port⟩ addrs hl hp
    simp only [hs, hu]

/-- C11 at a handle that rejects the state: `Build` returns the handle's error. -/
theorem Build_returns_start_result_witness :
    (roundRobinResolverBuilder.Build talosNet (fun _ => 0) ⟨50000, "taloslist-50000"⟩
      ⟨"taloslist-50000", "", "10.0.0.1"⟩ stateRejectingConn ⟨⟩).1 =
      .error (.external "bad resolver state") :=
  (Build_returns_start_result talosNet (fun _ => 0) ⟨50000, "taloslist-50000"⟩
    ⟨"taloslist-50000", "", "10.0.0.1"⟩ stateRejectingConn ⟨⟩).2.2.2.2
    [⟨"10.0.0.1", "10.0.0.1:50000"⟩] (.external "bad resolver state") rfl rfl rfl

/-- C12: when the tokens of the target all resolve and `ParseServiceConfig` reports an
error for the fixed directive, `start` returns exactly that error, after the one call
`ParseServiceConfig`, and `UpdateState` is not called. -/
theorem start_directive_rejected (lib : NetPkg) (draw : Nat → Nat) (r : roundRobinResolver)
    (addrs : List Address) (err : GoError)
    (hl : resolveLoop lib r.port (stringsSplitComma r.target.Endpoint) [] = .ok addrs)
    (hp : (r.cc.ParseServiceConfig serviceConfigJSON).Err = some err) :
    r.start lib draw = (some err, [.parseServiceConfig serviceConfigJSON]) ∧
    ∀ st, Call.updateState st ∉ (r.start lib draw).2 := by
  have hs : r.start lib draw = (some err, [.parseServiceConfig serviceConfigJSON]) := by
    unfold roundRobinResolver.start
    rw [hl]
    simp only [hp]
  refine ⟨hs, fun st hst => ?_⟩
  rw [hs] at hst
  simp at hst

/-- C12 at a handle that rejects the directive. -/
theorem start_directive_rejected_witness :
    roundRobinResolver.start talosNet (fun _ => 0)
        ⟨⟨"taloslist-50000", "", "a,b:1"⟩, directiveRejectingConn, 50000⟩ =
      (some (.external "invalid service config"), [.parseServiceConfig serviceConfigJSON]) :=
  (start_directive_rejected talosNet (fun _ => 0)
    ⟨⟨"taloslist-50000", "", "a,b:1"⟩, directiveRejectingConn, 50000⟩
    [⟨"a", "a:50000"⟩, ⟨"b", "b:1"⟩] (.external "invalid service config") rfl rfl).1

/-- C13: for a package that returns the empty string unchanged and detects no port in
it, and for every bound port `p`, the empty target is one empty token; every state `start`
publishes for it holds exactly one address, with empty server name and dial address `:`
followed by the decimal rendering of `p`; and when the handle accepts the directive and
the state, `start` makes its two calls and returns nil. -/
theorem start_empty_target (lib : NetPkg) (draw : Nat → Nat) (cc : ClientConn) (p : Int)
    (scheme authority : String)
    (hf : lib.FormatAddress "" = "")
    (hc : lib.AddressContainsPort "" = false) :
    stringsSplitComma "" = [""] ∧
    (∀ st, Call.updateState st ∈
        (roundRobinResolver.start lib draw ⟨⟨scheme, authority, ""⟩, cc, p⟩).2 →
      st.Addresses = [⟨"", ":" ++ Itoa p⟩]) ∧
    ((cc.ParseServiceConfig serviceConfigJSON).Err = none →
      (roundRobinResolver.start lib draw ⟨⟨scheme, authority, ""⟩, cc, p⟩).2 =
        [.parseServiceConfig serviceConfigJSON,
         .updateState ⟨[⟨"", ":" ++ Itoa p⟩], cc.ParseServiceConfig serviceConfigJSON⟩] ∧
      (cc.UpdateState ⟨[⟨"", ":" ++ Itoa p⟩], cc.ParseServiceConfig serviceConfigJSON⟩ = none →
        (roundRobinResolver.start lib draw ⟨⟨scheme, authority, ""⟩, cc, p⟩).1 = none)) := by
  have hj : JoinHostPort "" (Itoa p) = ":" ++ Itoa p := by
    apply String.ext
    simp [JoinHostPort, indexByte, String.data_append]
  have hx : resolveToken lib p "" = .ok ⟨"", ":" ++ Itoa p⟩ := by
    simp only [resolveToken, hf, hc, hj]
    rfl
  have h := start_single_token lib draw ⟨⟨scheme, authority, ""⟩, cc, p⟩ "" _
    (show stringsSplitComma "" = [""] by decide) hx
  refine ⟨by decide, h.1, fun hp => ?_⟩
  rw [h.2 hp]
  exact ⟨rfl, fun hu => hu⟩

/-- C13 at the package `talosNet`, an accepting handle and the port 50000. -/
theorem start_empty_target_witness :
    talosNet.FormatAddress "" = "" ∧ talosNet.AddressContainsPort "" = false ∧
    (roundRobinResolver.start talosNet (fun _ => 0)
        ⟨⟨"taloslist-50000", "", ""⟩, acceptingConn, 50000⟩).2 =
      [.parseServiceConfig serviceConfigJSON,
       .updateState ⟨[⟨"", ":" ++ Itoa 50000⟩], ⟨serviceConfigJSON, none⟩⟩] :=
  ⟨by decide, by decide,
    ((start_empty_target talosNet (fun _ => 0) acceptingConn 50000 "taloslist-50000" ""
      (by decide) (by decide)).2.2 rfl).1⟩

/-- C14: `ResolveNow` and `Close` make no call on the handle and leave the resolver (target,
handle, port) unchanged, so over a `Build` call followed by any sequence of them the calls
on the handle are those of `Build`; `UpdateState` is called at most once, exactly once when
the tokens resolve and the directive parses (so whenever `Build` succeeds, and when it
fails at publication), and not at all when `Build` fails before. -/
theorem UpdateState_at_most_once (lib : NetPkg) (draw : Nat → Nat)
    (b : roundRobinResolverBuilder) (target : Target) (cc : ClientConn) (opts : BuildOptions)
    (ops : List ResolverCall) :
    (∀ r : roundRobinResolver,
      r.ResolveNow = (r, []) ∧ r.Close = (r, []) ∧ r.run ops = (r, [])) ∧
    lifetimeCalls lib draw b target cc opts ops = (b.Build lib draw target cc opts).2 ∧
    (lifetimeCalls lib draw b target cc opts ops).countP Call.isUpdateState ≤ 1 ∧
    (((∃ addrs, resolveLoop lib b.port (stringsSplitComma target.Endpoint) [] = .ok addrs) ∧
        (cc.ParseServiceConfig serviceConfigJSON).Err = none) →
      (lifetimeCalls lib draw b target cc opts ops).countP Call.isUpdateState = 1) ∧
    (¬ ((∃ addrs, resolveLoop lib b.port (stringsSplitComma target.Endpoint) [] = .ok addrs) ∧
        (cc.ParseServiceConfig serviceConfigJSON).Err = none) →
      (lifetimeCalls lib draw b target cc opts ops).countP Call.isUpdateState = 0) ∧
    ((∃ r, (b.Build lib draw target cc opts).1 = .ok r) →
      (lifetimeCalls lib draw b target cc opts ops).countP Call.isUpdateState = 1) := by
  have hlife : lifetimeCalls lib draw b target cc opts ops =
      (b.Build lib draw target cc opts).2 := by
    unfold lifetimeCalls
    rcases hb : b.Build lib draw target cc opts with ⟨_ | r, calls⟩
    · rfl
    · simp [run_eq]
  have hcalls : (b.Build lib draw target cc opts).2 =
      (roundRobinResolver.start lib draw ⟨target, cc, b.port⟩).2 := by
    rw [Build_eq]
  have hone : ((∃ addrs,
        resolveLoop lib b.port (stringsSplitComma target.Endpoint) [] = .ok addrs) ∧
        (cc.ParseServiceConfig serviceConfigJSON).Err = none) →
      (lifetimeCalls lib draw b target cc opts ops).countP Call.isUpdateState = 1 := by
    rintro ⟨⟨addrs, hl⟩, hp⟩
    rw [hlife, hcalls, start_of_ok lib draw ⟨target, cc, b.port⟩ addrs hl hp]
    rfl
  have hzero : ¬ ((∃ addrs,
        resolveLoop lib b.port (stringsSplitComma target.Endpoint) [] = .ok addrs) ∧
        (cc.ParseServiceConfig serviceConfigJSON).Err = none) →
      (lifetimeCalls lib draw b target cc opts ops).countP Call.isUpdateState = 0 := by
    intro hnot
    rw [hlife, hcalls]
    cases hl : resolveLoop lib b.port (stringsSplitComma target.Endpoint) [] with
    | error e =>
      rw [start_of_error lib draw ⟨target, cc, b.port⟩ e hl]
      rfl
    | ok addrs =>
      cases hp : (cc.ParseServiceConfig serviceConfigJSON).Err with
      | none => exact absurd ⟨⟨addrs, hl⟩, hp⟩ hnot
      | some e =>
        unfold roundRobinResolver.start
        simp only [hl, hp]
        rfl
  refine ⟨fun r => ⟨rfl, rfl, run_eq r ops⟩, hlife, ?_, hone, hzero, ?_⟩
  · by_cases hc : (∃ addrs,
        resolveLoop lib b.port (stringsSplitComma target.Endpoint) [] = .ok addrs) ∧
        (cc.ParseServiceConfig serviceConfigJSON).Err = none
    · rw [hone hc]
    · rw [hzero hc]
      exact Nat.zero_le _
  · rintro ⟨r, hr⟩
    by_cases hc : (∃ addrs,
        resolveLoop lib b.port (stringsSplitComma target.Endpoint) [] = .ok addrs) ∧
        (cc.ParseServiceConfig serviceConfigJSON).Err = none
    · exact hone hc
    · exfalso
      rw [Build_eq] at hr
      cases hl : resolveLoop lib b.port (stringsSplitComma target.Endpoint) [] with
      | error e =>
        rw [start_of_error lib draw ⟨target, cc, b.port⟩ e hl] at hr
        cases hr
      | ok addrs =>
        cases hp : (cc.ParseServiceConfig serviceConfigJSON).Err with
        | none => exact hc ⟨⟨addrs, hl⟩, hp⟩
        | some e =>
          have hs : roundRobinResolver.start lib draw ⟨target, cc, b.port⟩ =
              (some e, [.parseServiceConfig serviceConfigJSON]) := by
            unfold roundRobinResolver.start
            simp only [hl, hp]
          rw [hs] at hr
          cases hr

/-- C14 at a successful `Build` followed by `ResolveNow`, `ResolveNow`, `Close`: one
`UpdateState` call in all. -/
theorem UpdateState_at_most_once_witness :
    (lifetimeCalls talosNet (fun _ => 0) ⟨50000, "taloslist-50000"⟩
      ⟨"taloslist-50000", "", "a,b:1"⟩ acceptingConn ⟨⟩
      [.resolveNow, .resolveNow, .close]).countP Call.isUpdateState = 1 :=
  (UpdateState_at_most_once talosNet (fun _ => 0) ⟨50000, "taloslist-50000"⟩
    ⟨"taloslist-50000", "", "a,b:1"⟩ acceptingConn ⟨⟩
    [.resolveNow, .resolveNow, .close]).2.2.2.1 ⟨⟨[⟨"a", "a:50000"⟩, ⟨"b", "b:1"⟩], rfl⟩, rfl⟩

/-! ## IPv6 literals without a port -/

/-- The last occurrence of a byte that occurs after `pre` lies at or after the end of
`pre`. -/
theorem lastIndexByte_append_cons (c : Char) (pre rest : List Char) :
    ∃ i, lastIndexByte c (pre ++ c :: rest) = some i ∧ pre.length ≤ i := by
  induction pre with
  | nil =>
    cases h : lastIndexByte c rest with
    | none => exact ⟨0, by simp [lastIndexByte, h], Nat.le_refl _⟩
    | some k => exact ⟨k + 1, by simp [lastIndexByte, h], Nat.zero_le _⟩
  | cons x pre ih =>
    obtain ⟨i, hi, hle⟩ := ih
    exact ⟨i + 1, by simp [lastIndexByte, hi], by simpa using hle⟩

/-- Whatever the port, `net.SplitHostPort` rejects `[[::1]]:port`. -/
theorem SplitHostPort_double_brackets (port : String) :
    SplitHostPort ("[[::1]]:" ++ port) =
      .error (.addrError "missing port in address" ("[[::1]]:" ++ port)) := by
  obtain ⟨i, hi, hle⟩ := lastIndexByte_append_cons ':' "[[::1]]".data port.data
  have hdata : ("[[::1]]:" ++ port).data = "[[::1]]".data ++ ':' :: port.data := by
    rw [String.data_append]
    rfl
  have hlen : 7 ≤ i := hle
  unfold SplitHostPort
  simp only [hdata, hi]
  have h1 : ("[[::1]]".data ++ ':' :: port.data).head? = some '[' := rfl
  have h2 : indexByte ']' ("[[::1]]".data ++ ':' :: port.data) = some 5 := rfl
  have h3 : ("[[::1]]".data ++ ':' :: port.data).length = 8 + port.data.length := by
    simp
    omega
  have h4 : ("[[::1]]".data ++ ':' :: port.data).get? (5 + 1) = some ']' := rfl
  simp only [h1, h2, h3, h4, if_true]
  rw [if_neg (by omega), if_neg (by omega), if_neg (by decide)]

/-- C15 (where it fails): for a package that puts the bare literal `::1` in brackets, keeps
the bracketed literal `[::1]` and detects no port in `[::1]`, for every bound port `p` and
an accepting handle, `start` publishes for the target `::1` and for the target `[::1]` the
server name `[::1]` with the dial address `[[::1]]:p`, which `net.SplitHostPort` does not
split: no host is obtained from the dial address, so none equal to the server name. -/
theorem start_ipv6_literal_not_self_consistent (lib : NetPkg) (draw : Nat → Nat)
    (cc : ClientConn) (p : Int) (scheme authority : String)
    (hbare : lib.FormatAddress "::1" = "[::1]")
    (hbracketed : lib.FormatAddress "[::1]" = "[::1]")
    (hc : lib.AddressContainsPort "[::1]" = false)
    (hp : (cc.ParseServiceConfig serviceConfigJSON).Err = none) :
    (roundRobinResolver.start lib draw ⟨⟨scheme, authority, "::1"⟩, cc, p⟩).2 =
      [.parseServiceConfig serviceConfigJSON,
       .updateState ⟨[⟨"[::1]", "[[::1]]:" ++ Itoa p⟩],
         cc.ParseServiceConfig serviceConfigJSON⟩] ∧
    (roundRobinResolver.start lib draw ⟨⟨scheme, authority, "[::1]"⟩, cc, p⟩).2 =
      [.parseServiceConfig serviceConfigJSON,
       .updateState ⟨[⟨"[::1]", "[[::1]]:" ++ Itoa p⟩],
         cc.ParseServiceConfig serviceConfigJSON⟩] ∧
    ∀ host prt, SplitHostPort ("[[::1]]:" ++ Itoa p) ≠ .ok (host, prt) := by
  have hj : JoinHostPort "[::1]" (Itoa p) = "[[::1]]:" ++ Itoa p := by
    apply String.ext
    have : (indexByte ':' "[::1]".data).isSome = true := by decide
    simp only [JoinHostPort, this, if_true, String.data_append]
    rfl
  have hx₁ : resolveToken lib p "::1" = .ok ⟨"[::1]", "[[::1]]:" ++ Itoa p⟩ := by
    simp only [resolveToken, hbare, hc, hj]
    rfl
  have hx₂ : resolveToken lib p "[::1]" = .ok ⟨"[::1]", "[[::1]]:" ++ Itoa p⟩ := by
    simp only [resolveToken, hbracketed, hc, hj]
    rfl
  have h₁ := (start_single_token lib draw ⟨⟨scheme, authority, "::1"⟩, cc, p⟩ "::1" _
    (show stringsSplitComma "::1" = ["::1"] by decide) hx₁).2 hp
  have h₂ := (start_single_token lib draw ⟨⟨scheme, authority, "[::1]"⟩, cc, p⟩ "[::1]" _
    (show stringsSplitComma "[::1]" = ["[::1]"] by decide) hx₂).2 hp
  refine ⟨by rw [h₁], by rw [h₂], fun host prt h => ?_⟩
  rw [SplitHostPort_double_brackets] at h
  cases h

/-- C15 at the package `talosNet`, an accepting handle and the port 50000. -/
theorem start_ipv6_literal_not_self_consistent_witness :
    talosNet.FormatAddress "::1" = "[::1]" ∧ talosNet.FormatAddress "[::1]" = "[::1]" ∧
    talosNet.AddressContainsPort "[::1]" = false ∧
    (roundRobinResolver.start talosNet (fun _ => 0)
        ⟨⟨"taloslist-50000", "", "[::1]"⟩, acceptingConn, 50000⟩).2 =
      [.parseServiceConfig serviceConfigJSON,
       .updateState ⟨[⟨"[::1]", "[[::1]]:" ++ Itoa 50000⟩], ⟨serviceConfigJSON, none⟩⟩] :=
  ⟨by decide, by decide, by decide,
    (start_ipv6_literal_not_self_consistent talosNet (fun _ => 0) acceptingConn 50000
      "taloslist-50000" "" (by decide) (by decide) (by decide) rfl).2.1⟩

/-! ## The shuffle is uniform -/

theorem swapAt_length {α : Type} (xs : List α) (i j : Nat) :
    (swapAt xs i j).length = xs.length := by
  unfold swapAt
  split <;> simp

theorem swapAt_append {α : Type} (pre suf : List α) (i j : Nat) (hi : i < pre.length)
    (hj : j < pre.length) : swapAt (pre ++ suf) i j = swapAt pre i j ++ suf := by
  unfold swapAt
  simp only [List.get?_eq_getElem?, List.getElem?_append_left hi, List.getElem?_append_left hj,
    List.getElem?_eq_getElem hi, List.getElem?_eq_getElem hj]
  rw [List.set_append_left _ _ hi, List.set_append_left _ _ (by simpa using hj)]

theorem swapAt_map {α β : Type} (f : α → β) (xs : List α) (i j : Nat) :
    swapAt (xs.map f) i j = (swapAt xs i j).map f := by
  unfold swapAt
  simp only [List.get?_eq_getElem?, List.getElem?_map]
  cases hi : xs[i]? <;> cases hj : xs[j]? <;> simp [List.map_set]

theorem Shuffle_length {α : Type} (draw : Nat → Nat) (n : Nat) (xs : List α) :
    (Shuffle draw n xs).length = xs.length := by
  induction n using Nat.strongRecOn generalizing xs with
  | _ n ih =>
    match n with
    | 0 => rfl
    | 1 => rfl
    | i + 2 => rw [Shuffle, ih (i + 1) (by omega), swapAt_length]

theorem Shuffle_congr {α : Type} (d₁ d₂ : Nat → Nat) (n : Nat) (xs : List α)
    (h : ∀ k, k < n → d₁ k = d₂ k) : Shuffle d₁ n xs = Shuffle d₂ n xs := by
  induction n using Nat.strongRecOn generalizing xs with
  | _ n ih =>
    match n with
    | 0 => rfl
    | 1 => rfl
    | i + 2 =>
      rw [Shuffle, Shuffle, h (i + 1) (by omega)]
      exact ih (i + 1) (by omega) _ fun k hk => h k (by omega)

theorem Shuffle_append {α : Type} (draw : Nat → Nat) (n : Nat) (pre suf : List α)
    (hn : n ≤ pre.length) : Shuffle draw n (pre ++ suf) = Shuffle draw n pre ++ suf := by
  induction n using Nat.strongRecOn generalizing pre with
  | _ n ih =>
    match n with
    | 0 => rfl
    | 1 => rfl
    | i + 2 =>
      rw [Shuffle, Shuffle, swapAt_append pre suf _ _ (by omega)
        (lt_of_lt_of_le (Nat.mod_lt _ (by omega)) hn)]
      exact ih (i + 1) (by omega) _ (by rw [swapAt_length]; omega)

theorem Shuffle_map {α β : Type} (f : α → β) (draw : Nat → Nat) (n : Nat) (xs : List α) :
    Shuffle draw n (xs.map f) = (Shuffle draw n xs).map f := by
  induction n using Nat.strongRecOn generalizing xs with
  | _ n ih =>
    match n with
    | 0 => rfl
    | 1 => rfl
    | i + 2 =>
      rw [Shuffle, Shuffle, swapAt_map]
      exact ih (i + 1) (by omega) _

theorem drawSequences_length (n : Nat) : (drawSequences n).length = n.factorial := by
  induction n using Nat.strongRecOn with
  | _ n ih =>
    match n with
    | 0 => rfl
    | 1 => rfl
    | i + 2 =>
      rw [drawSequences, List.length_flatMap, Nat.factorial_succ]
      simp only [Function.comp_def, List.length_map, ih (i + 1) (by omega)]
      simp

theorem ShuffleOutcomes_length {α : Type} (n : Nat) (xs : List α) :
    (ShuffleOutcomes n xs).length = n.factorial := by
  simp [ShuffleOutcomes, drawSequences_length]

/-- The outcomes, step by step: the first draw `j` ranges over `0, …, n-1`, and the rest of
the shuffle runs on the list with the positions `n-1` and `j` swapped. -/
theorem ShuffleOutcomes_succ {α : Type} (i : Nat) (xs : List α) :
    ShuffleOutcomes (i + 2) xs =
      (List.range (i + 2)).flatMap fun j => ShuffleOutcomes (i + 1) (swapAt xs (i + 1) j) := by
  unfold ShuffleOutcomes
  rw [drawSequences, List.map_flatMap]
  refine List.flatMap_congr fun j hj => ?_
  rw [List.map_map]
  refine List.map_congr_left fun draw _ => ?_
  simp only [Function.comp_apply]
  rw [Shuffle, Function.update_same, Nat.mod_eq_of_lt (List.mem_range.mp hj)]
  exact Shuffle_congr _ _ _ _ fun k hk => Function.update_noteq (by omega) _ _

theorem ShuffleOutcomes_append {α : Type} (n : Nat) (pre suf : List α) (hn : n ≤ pre.length) :
    ShuffleOutcomes n (pre ++ suf) = (ShuffleOutcomes n pre).map (· ++ suf) := by
  unfold ShuffleOutcomes
  rw [List.map_map]
  exact List.map_congr_left fun draw _ => Shuffle_append draw n pre suf hn

theorem ShuffleOutcomes_map {α β : Type} (f : α → β) (n : Nat) (xs : List α) :
    ShuffleOutcomes n (xs.map f) = (ShuffleOutcomes n xs).map (List.map f) := by
  unfold ShuffleOutcomes
  rw [List.map_map]
  exact List.map_congr_left fun draw _ => Shuffle_map f draw n xs

/-- After swapping the positions `m` and `j` the element at `m` is the one that was at
`j`. -/
theorem swapAt_getElem {α : Type} (xs : List α) (m j : Nat) (hm : m < xs.length)
    (hj : j < xs.length) : (swapAt xs m j)[m]? = some xs[j] := by
  unfold swapAt
  simp only [List.get?_eq_getElem?, List.getElem?_eq_getElem hm, List.getElem?_eq_getElem hj]
  by_cases h : j = m
  · subst h
    rw [List.getElem?_eq_getElem (by simpa using hj), List.getElem_set_self]
  · rw [List.getElem?_eq_getElem (by simpa using hm), List.getElem_set_ne h,
      List.getElem_set_self]

/-- A list of length `m + 1` is its first `m` elements followed by its last. -/
theorem eq_take_append_of_getElem {α : Type} (l : List α) (m : Nat) (y : α)
    (hlen : l.length = m + 1) (hy : l[m]? = some y) : l = l.take m ++ [y] := by
  have hm : m < l.length := by omega
  rw [List.getElem?_eq_getElem hm] at hy
  have hdrop : l.drop m = [y] := by
    rw [List.drop_eq_getElem_cons hm, List.drop_of_length_le (by omega)]
    simpa using hy
  conv_lhs => rw [← List.take_append_drop m l, hdrop]

/-- Every rearrangement of `xs` is the result of the shuffle for some sequence of draws. -/
theorem mem_ShuffleOutcomes_of_perm {α : Type} (n : Nat) (xs ys : List α)
    (hlen : xs.length = n) (h : ys.Perm xs) : ys ∈ ShuffleOutcomes n xs := by
  induction n using Nat.strongRecOn generalizing xs ys with
  | _ n ih =>
    match n with
    | 0 =>
      have hx : xs = [] := List.length_eq_zero.mp hlen
      subst hx
      simp [List.perm_nil.mp h, ShuffleOutcomes, drawSequences, Shuffle]
    | 1 =>
      obtain ⟨a, rfl⟩ := List.length_eq_one.mp hlen
      simp [List.perm_singleton.mp h, ShuffleOutcomes, drawSequences, Shuffle]
    | i + 2 =>
      rcases List.eq_nil_or_concat ys with rfl | ⟨init, y, rfl⟩
      · have := h.length_eq
        simp [hlen] at this
      · rw [List.concat_eq_append] at h ⊢
        have hy : y ∈ xs := h.subset (by simp)
        obtain ⟨j, hj, hjy⟩ := List.getElem_of_mem hy
        have hswlen : (swapAt xs (i + 1) j).length = i + 1 + 1 := by
          rw [swapAt_length, hlen]
        have hsw := eq_take_append_of_getElem (swapAt xs (i + 1) j) (i + 1) y hswlen
          (by rw [swapAt_getElem xs (i + 1) j (by omega) hj, hjy])
        have hperm : ((swapAt xs (i + 1) j).take (i + 1)).Perm init := by
          rw [← List.perm_append_right_iff [y], ← hsw]
          exact (swapAt_perm xs (i + 1) j).trans h.symm
        have hrec := ih (i + 1) (by omega) ((swapAt xs (i + 1) j).take (i + 1)) init
          (by rw [List.length_take, hswlen]; omega) hperm.symm
        rw [ShuffleOutcomes_succ, List.mem_flatMap]
        refine ⟨j, List.mem_range.mpr (by omega), ?_⟩
        rw [hsw, ShuffleOutcomes_append _ _ _ (by rw [List.length_take, hswlen]; omega)]
        exact List.mem_map.mpr ⟨init, hrec, rfl⟩

/-- On distinct elements the outcomes are the rearrangements, each exactly once. -/
theorem ShuffleOutcomes_perm_of_nodup {α : Type} (n : Nat) (xs : List α) (hlen : xs.length = n)
    (hnd : xs.Nodup) : (ShuffleOutcomes n xs).Perm xs.permutations := by
  have hsub : xs.permutations ⊆ ShuffleOutcomes n xs := fun ys hys =>
    mem_ShuffleOutcomes_of_perm n xs ys hlen (List.mem_permutations.mp hys)
  have hle : (ShuffleOutcomes n xs).length ≤ xs.permutations.length := by
    rw [ShuffleOutcomes_length, List.length_permutations, hlen]
  exact ((List.subperm_of_subset (List.nodup_permutations xs hnd) hsub).perm_of_length_le
    hle).symm

/-- The outcomes of the shuffle are the rearrangements of the list by position. -/
theorem ShuffleOutcomes_perm {α : Type} (xs : List α) :
    (ShuffleOutcomes xs.length xs).Perm xs.permutations := by
  have hmap := ShuffleOutcomes_map xs.get xs.length (List.finRange xs.length)
  rw [List.finRange_map_get] at hmap
  rw [hmap]
  have hfin := ShuffleOutcomes_perm_of_nodup xs.length (List.finRange xs.length)
    (List.length_finRange _) (List.nodup_finRange _)
  have := hfin.map (List.map xs.get)
  rwa [List.map_permutations, List.finRange_map_get] at this

/-- Among the rearrangements of distinct elements, those that start with a given element
are the rearrangements of the others. -/
theorem countP_head_permutations {α : Type} [DecidableEq α] (xs : List α) (x : α)
    (hnd : xs.Nodup) (hx : x ∈ xs) :
    xs.permutations.countP (fun l => l.head? == some x) = (xs.length - 1).factorial := by
  have hperm : (xs.permutations.filter fun l => l.head? == some x).Perm
      ((xs.erase x).permutations.map (List.cons x)) := by
    rw [List.perm_ext_iff_of_nodup ((List.nodup_permutations xs hnd).filter _)
      ((List.nodup_permutations _ (hnd.erase x)).map (List.cons_injective))]
    intro l
    simp only [List.mem_filter, List.mem_permutations, List.mem_map, beq_iff_eq]
    constructor
    · rintro ⟨hl, hhead⟩
      cases l with
      | nil => simp at hhead
      | cons a rest =>
        simp only [List.head?_cons, Option.some.injEq] at hhead
        subst hhead
        refine ⟨rest, ?_, rfl⟩
        have := hl.erase a
        rwa [List.erase_cons_head] at this
    · rintro ⟨rest, hrest, rfl⟩
      exact ⟨(hrest.cons x).trans (List.perm_cons_erase hx).symm, rfl⟩
  rw [List.countP_eq_length_filter, hperm.length_eq, List.length_map,
    List.length_permutations, List.length_erase_of_mem hx]

/-- C16: when the tokens resolve to the list `addrs`, the list `start` publishes is
`rand.Shuffle` applied to all of `addrs`, one of the outcomes of the shuffle.  With every
sequence of draws equally likely (at step `i` each of the `i + 1` values, the steps
independent), the `n!` sequences of draws yield the rearrangements of `addrs` by position,
each once; so for distinct addresses every ordering has probability `1 / n!` and each
address is first with probability `1 / n`. -/
theorem start_shuffle_uniform (lib : NetPkg) (r : roundRobinResolver) (addrs : List Address)
    (hl : resolveLoop lib r.port (stringsSplitComma r.target.Endpoint) [] = .ok addrs) :
    (∀ draw st, Call.updateState st ∈ (r.start lib draw).2 →
      st.Addresses = Shuffle draw addrs.length addrs ∧
      st.Addresses ∈ ShuffleOutcomes addrs.length addrs) ∧
    (∀ ys ∈ ShuffleOutcomes addrs.length addrs, ∃ draw, Shuffle draw addrs.length addrs = ys) ∧
    (drawSequences addrs.length).length = addrs.length.factorial ∧
    (ShuffleOutcomes addrs.length addrs).Perm addrs.permutations ∧
    (addrs.Nodup → ∀ ys, ys.Perm addrs →
      shuffleProbability addrs (fun l => decide (l = ys)) =
        1 / (addrs.length.factorial : ℚ)) ∧
    (addrs.Nodup → ∀ x ∈ addrs,
      shuffleProbability addrs (fun l => l.head? == some x) = 1 / (addrs.length : ℚ)) := by
  refine ⟨fun draw st hst => ?_, fun ys hys => ?_, drawSequences_length _,
    ShuffleOutcomes_perm addrs, fun hnd ys hys => ?_, fun hnd x hx => ?_⟩
  · obtain ⟨addrs', hl', _, rfl⟩ := start_published lib draw r st hst
    rw [hl] at hl'
    cases hl'
    exact ⟨rfl, mem_ShuffleOutcomes_of_perm _ addrs _ rfl (Shuffle_perm draw _ addrs)⟩
  · obtain ⟨draw, _, hdraw⟩ := List.mem_map.mp hys
    exact ⟨draw, hdraw⟩
  · have hcount : addrs.permutations.countP (fun l => decide (l = ys)) = 1 := by
      rw [← List.count_eq_one_of_mem (List.nodup_permutations addrs hnd)
        (List.mem_permutations.mpr hys)]
      unfold List.count
      exact List.countP_congr fun l _ => by simp
    unfold shuffleProbability
    rw [ShuffleOutcomes_length, (ShuffleOutcomes_perm addrs).countP_eq, hcount]
    simp
  · unfold shuffleProbability
    rw [ShuffleOutcomes_length, (ShuffleOutcomes_perm addrs).countP_eq,
      countP_head_permutations addrs x hnd hx]
    obtain ⟨m, hm⟩ : ∃ m, addrs.length = m + 1 :=
      ⟨addrs.length - 1, by have := List.length_pos_of_mem hx; omega⟩
    rw [hm, Nat.add_sub_cancel, Nat.factorial_succ]
    have hf : ((m.factorial : ℕ) : ℚ) ≠ 0 := by exact_mod_cast (Nat.factorial_pos m).ne'
    push_cast
    field_simp
    ring

/-- C16 at the target `a,b:1,c` with bound port 50000: the address of the token `b:1` is
first with probability one third. -/
theorem start_shuffle_uniform_witness :
    shuffleProbability [(⟨"a", "a:50000"⟩ : Address), ⟨"b", "b:1"⟩, ⟨"c", "c:50000"⟩]
      (fun l => l.head? == some ⟨"b", "b:1"⟩) = 1 / 3 :=
  ((start_shuffle_uniform talosNet ⟨⟨"taloslist-50000", "", "a,b:1,c"⟩, acceptingConn, 50000⟩
    [⟨"a", "a:50000"⟩, ⟨"b", "b:1"⟩, ⟨"c", "c:50000"⟩] rfl).2.2.2.2.2 (by decide)
    ⟨"b", "b:1"⟩ (by decide)).trans (by norm_num)

end Resolver
